import Mathlib

/-!
A shallow embedding, in Lean 4, of the metric-classification and
dashboard-composition core of the lazydash repository.

The Go packages `pkg/metrics`, `pkg/prometheus`, `pkg/query` and
`pkg/grafana` are translated definition by definition:

* Go strings become `String`; the Go `strings` helpers used by the code
  (`Contains`, `HasPrefix`, `HasSuffix`, `TrimPrefix`, `TrimSuffix`,
  `Replace`, `ToLower`, `SplitN`, `Join`) are implemented on `List Char`
  below and lifted to `String`.
* `map[string]bool` label sets become duplicate-free `List String`
  (insertion adds a missing key at the end; enumeration sorts, exactly as
  `Metric.Labels` does via `sort.Strings`).
* `map[string]*Metric` registries become association lists with unique
  keys maintained by `Registry.set`; all enumeration goes through the
  sorted key list, as `Registry.List`/`ForEach` do.
* Go's `for k := range m` over a map has unspecified iteration order; the
  two places the dashboard code does this (label groups, per-vendor
  category groups) therefore take an explicit reordering oracle argument,
  so that one oracle value models one concrete run of the program.
* The float literals of the alert heuristic become the corresponding
  rationals.
-/

namespace Lazydash

/-- Go `strings.HasPrefix` on character lists. -/
def startsWithL : List Char → List Char → Bool
  | _, [] => true
  | [], _ :: _ => false
  | a :: as, b :: bs => a == b && startsWithL as bs

/-- Go `strings.Contains` on character lists (substring containment). -/
def containsL : List Char → List Char → Bool
  | [], pat => pat.isEmpty
  | c :: rest, pat => startsWithL (c :: rest) pat || containsL rest pat

/-- Go `strings.HasSuffix` on character lists. -/
def endsWithL (s pat : List Char) : Bool :=
  startsWithL s.reverse pat.reverse

/-- Go `strings.TrimSuffix` on character lists. -/
def trimSuffixL (s pat : List Char) : List Char :=
  if endsWithL s pat then s.take (s.length - pat.length) else s

/-- Go `strings.TrimPrefix` on character lists. -/
def trimPreL (s pat : List Char) : List Char :=
  if startsWithL s pat then s.drop pat.length else s

/-- Fuel-driven worker for Go `strings.Replace(s, old, new, -1)`; the fuel
is initialised with the length of `s`, which bounds the number of steps. -/
def replaceAllGo (pat rep : List Char) : Nat → List Char → List Char
  | 0, s => s
  | _ + 1, [] => []
  | fuel + 1, c :: cs =>
    if pat ≠ [] ∧ startsWithL (c :: cs) pat then
      rep ++ replaceAllGo pat rep fuel (List.drop (pat.length - 1) cs)
    else
      c :: replaceAllGo pat rep fuel cs

/-- Go `strings.Replace(s, old, new, 1)` on character lists. -/
def replaceFirstL (pat rep : List Char) : List Char → List Char
  | [] => []
  | c :: cs =>
    if pat ≠ [] ∧ startsWithL (c :: cs) pat then
      rep ++ List.drop (pat.length - 1) cs
    else
      c :: replaceFirstL pat rep cs

/-- First segment of a name: `strings.SplitN(s, "_", 2)[0]`. -/
def firstSegL (s : List Char) : List Char :=
  s.takeWhile (fun c => c != '_')

/-- Go `strings.HasPrefix` on strings. -/
def startsWithS (s pat : String) : Bool := startsWithL s.data pat.data

/-- Go `strings.Contains` on strings. -/
def containsS (s pat : String) : Bool := containsL s.data pat.data

/-- Go `strings.HasSuffix` on strings. -/
def endsWithS (s pat : String) : Bool := endsWithL s.data pat.data

/-- Go `strings.TrimSuffix` on strings. -/
def trimSuffixS (s pat : String) : String := ⟨trimSuffixL s.data pat.data⟩

/-- Go `strings.TrimPrefix` on strings. -/
def trimPreS (s pat : String) : String := ⟨trimPreL s.data pat.data⟩

/-- Go `strings.ToLower` (the sources only ever compare ASCII names). -/
def toLowerS (s : String) : String := ⟨s.data.map Char.toLower⟩

/-- Go `strings.Replace(s, old, new, -1)`. The sources never call it with
an empty `old`; for totality an empty pattern leaves `s` unchanged. -/
def replaceAllS (s old new : String) : String :=
  ⟨replaceAllGo old.data new.data s.data.length s.data⟩

/-- Go `strings.Replace(s, old, new, 1)`. -/
def replaceFirstS (s old new : String) : String :=
  ⟨replaceFirstL old.data new.data s.data⟩

/-- `strings.SplitN(s, "_", 2)[0]`, the only use of `SplitN` in the code. -/
def firstSegS (s : String) : String := ⟨firstSegL s.data⟩

/-- `strings.ToUpper(s[:1]) + s[1:]` used for category row titles. -/
def upperFirstS (s : String) : String :=
  match s.data with
  | [] => ""
  | c :: cs => ⟨Char.toUpper c :: cs⟩

/-- Strict lexicographic (byte-wise, as Go compares strings) order on
character lists, via code points. -/
def strLtL : List Char → List Char → Bool
  | [], [] => false
  | [], _ :: _ => true
  | _ :: _, [] => false
  | a :: as, b :: bs =>
    a.toNat < b.toNat || (a.toNat == b.toNat && strLtL as bs)

/-- Lexicographic `≤` on strings, matching the order used by Go's
`sort.Strings`. -/
def strLe (a b : String) : Bool := !(strLtL b.data a.data)

/-- `strLe` as a relation, for use with `List.insertionSort`. -/
def strLeRel (a b : String) : Prop := strLe a b = true

instance : DecidableRel strLeRel := fun a b => by
  unfold strLeRel; infer_instance

theorem strLtL_asymm : ∀ x y : List Char,
    strLtL x y = true → strLtL y x = false := by
  intro x
  induction x with
  | nil =>
    intro y h
    cases y with
    | nil => simp [strLtL] at h
    | cons c cs => simp [strLtL]
  | cons a as ih =>
    intro y h
    cases y with
    | nil => simp [strLtL] at h
    | cons b bs =>
      simp only [strLtL, Bool.or_eq_true, Bool.and_eq_true, decide_eq_true_eq,
        beq_iff_eq] at h
      rcases h with h | ⟨heq, hlt⟩
      · have h1 : ¬ b.toNat < a.toNat := by omega
        have h2 : b.toNat ≠ a.toNat := by omega
        simp [strLtL, h1, h2]
      · have h1 : ¬ b.toNat < a.toNat := by omega
        simp [strLtL, h1, ih bs hlt]

theorem strLtL_connex : ∀ x z y : List Char,
    strLtL x z = true → strLtL x y = true ∨ strLtL y z = true := by
  intro x
  induction x with
  | nil =>
    intro z y h
    cases z with
    | nil => simp [strLtL] at h
    | cons c cs =>
      cases y with
      | nil => right; simp [strLtL]
      | cons b bs => left; simp [strLtL]
  | cons a as ih =>
    intro z y h
    cases z with
    | nil => simp [strLtL] at h
    | cons c cs =>
      cases y with
      | nil => right; simp [strLtL]
      | cons b bs =>
        simp only [strLtL, Bool.or_eq_true, Bool.and_eq_true,
          decide_eq_true_eq, beq_iff_eq] at h ⊢
        rcases h with h | ⟨heq, hlt⟩
        · rcases Nat.lt_trichotomy a.toNat b.toNat with hab | hab | hab
          · left; left; exact hab
          · right; left; omega
          · right; left; omega
        · rcases Nat.lt_trichotomy a.toNat b.toNat with hab | hab | hab
          · left; left; exact hab
          · rcases ih cs bs hlt with h1 | h1
            · left; right; exact ⟨hab, h1⟩
            · right; right; exact ⟨by omega, h1⟩
          · right; left; omega

instance : IsTotal String strLeRel := by
  constructor
  intro a b
  unfold strLeRel strLe
  by_cases h : strLtL b.data a.data = true
  · right
    have := strLtL_asymm _ _ h
    simp [this]
  · left
    simp only [Bool.not_eq_true] at h
    simp [h]

instance : IsTrans String strLeRel := by
  constructor
  intro a b c hab hbc
  unfold strLeRel strLe at hab hbc ⊢
  simp only [Bool.not_eq_true'] at hab hbc ⊢
  by_contra hca
  simp only [Bool.not_eq_false] at hca
  rcases strLtL_connex _ _ b.data hca with h | h
  · rw [hbc] at h; exact Bool.false_ne_true h
  · rw [hab] at h; exact Bool.false_ne_true h

/-- Go `sort.Strings` (the result, not the algorithm): sort
lexicographically. -/
def sortStrings (l : List String) : List String :=
  List.insertionSort strLeRel l

theorem sortStrings_sorted (l : List String) :
    List.Sorted strLeRel (sortStrings l) :=
  List.sorted_insertionSort strLeRel l

theorem mem_sortStrings {l : List String} {x : String} :
    x ∈ sortStrings l ↔ x ∈ l :=
  List.mem_insertionSort strLeRel

/-! ## `pkg/metrics`: the `Metric` value object (`metric.go`)

The Go struct's `map[string]bool` label set is represented by a list of
label names; `addLabel` keeps it duplicate-free, and `labelsSorted`
(`Metric.Labels`) enumerates it sorted, so list order is unobservable. -/

structure Metric where
  help : String := ""
  mtype : String := ""
  name : String := ""
  suffix : String := ""
  labels : List String := []
  unit : String := ""
  vendor : String := ""
  subsystem : String := ""
  category : String := ""
  displayName : String := ""
deriving DecidableEq

/-- `metrics.New`: classification fields start empty; a nil label map
becomes the empty set. -/
def Metric.new (name help : String) (labels : List String)
    (mtype suffix unit : String) : Metric :=
  { name, help, mtype, suffix, unit, labels,
    vendor := "", subsystem := "", category := "", displayName := "" }

/-- `Metric.AddLabel`: insertion into the label-name set. -/
def Metric.addLabel (m : Metric) (l : String) : Metric :=
  if m.labels.contains l then m else { m with labels := m.labels ++ [l] }

/-- `Metric.HasLabel`. -/
def Metric.hasLabel (m : Metric) (l : String) : Bool := m.labels.contains l

/-- `Metric.Labels`: the sorted list of label names. -/
def Metric.labelsSorted (m : Metric) : List String := sortStrings m.labels

/-- `Metric.FullName`: name plus retained suffix. -/
def Metric.fullName (m : Metric) : String :=
  if m.suffix == "" then m.name else m.name ++ m.suffix

/-- `Metric.DisplayName`: the override when set, else the name. -/
def Metric.displayNameOrName (m : Metric) : String :=
  if m.displayName != "" then m.displayName else m.name

/-! ## `pkg/metrics`: the `Registry` (`registry.go`)

`map[string]*Metric` becomes an association list whose keys are kept
unique by `set`; `list` sorts the keys (`Registry.List`), and
`forEachList` enumerates (name, metric) pairs in sorted-key order exactly
as `Registry.ForEach` does. -/

def setAssoc : List (String × Metric) → String → Metric → List (String × Metric)
  | [], n, m => [(n, m)]
  | (k, v) :: rest, n, m =>
    if k == n then (n, m) :: rest else (k, v) :: setAssoc rest n m

def getAssoc : List (String × Metric) → String → Option Metric
  | [], _ => none
  | (k, v) :: rest, n => if k == n then some v else getAssoc rest n

structure Registry where
  items : List (String × Metric) := []
deriving DecidableEq

/-- `metrics.NewRegistry`. -/
def Registry.empty : Registry := ⟨[]⟩

/-- `Registry.Set`: add or replace. -/
def Registry.set (r : Registry) (n : String) (m : Metric) : Registry :=
  ⟨setAssoc r.items n m⟩

/-- `Registry.Get` (`nil` pointer becomes `none`). -/
def Registry.get (r : Registry) (n : String) : Option Metric :=
  getAssoc r.items n

/-- `Registry.Has`. -/
def Registry.has (r : Registry) (n : String) : Bool := (r.get n).isSome

/-- `Registry.Count`. -/
def Registry.count (r : Registry) : Nat := r.items.length

/-- `Registry.List`: sorted metric names. -/
def Registry.list (r : Registry) : List String :=
  sortStrings (r.items.map Prod.fst)

/-- The (name, metric) sequence visited by `Registry.ForEach`. -/
def Registry.forEachList (r : Registry) : List (String × Metric) :=
  r.list.filterMap (fun n => (r.get n).map (fun m => (n, m)))

/-- The metric sequence visited by `Registry.ForEach`. -/
def Registry.metricsInOrder (r : Registry) : List Metric :=
  r.forEachList.map Prod.snd

/-- In-place mutation of the metric stored under `n` (the Go code mutates
through the pointer returned by `Get`). -/
def Registry.update (r : Registry) (n : String) (f : Metric → Metric) : Registry :=
  match r.get n with
  | some m => r.set n (f m)
  | none => r

/-- `Registry.Filter`: a fresh registry built by `ForEach` + `Set`. -/
def Registry.filter (r : Registry) (f : String → Metric → Bool) : Registry :=
  r.forEachList.foldl
    (fun acc p => if f p.1 p.2 then acc.set p.1 p.2 else acc) Registry.empty

/-- `Registry.ListVendors`: the sorted set of non-empty vendor tags seen
during a `ForEach` traversal. -/
def Registry.listVendors (r : Registry) : List String :=
  sortStrings (((r.forEachList.map (fun p => p.2.vendor)).filter
    (fun v => v != "")).dedup)

/-- `Registry.FilterByVendor`. -/
def Registry.filterByVendor (r : Registry) (v : String) : Registry :=
  r.filter (fun _ m => m.vendor == v)

/-! ## Configuration (`internal/config`, consumed surface)

Only the configuration fields read by the embedded core are modelled;
nilable pointers become `Option`. `PanelsPerRow` is a `Nat`: the Go code
guards every use with `> 0`, so non-positive values behave like `0`. -/

structure VendorConfig where
  enabled : Bool := false
  knownPrefixes : List String := []
  customPrefixes : List String := []
  juniperEnabled : Bool := false
  ciscoEnabled : Bool := false
  groupByVendor : Bool := false
deriving DecidableEq

structure LabelGrouping where
  groupByLabels : List String := []
  separateRows : Bool := false
  panelsPerRow : Nat := 0
deriving DecidableEq

structure Config where
  vendorConfig : Option VendorConfig := none
  labelGrouping : Option LabelGrouping := none
  autoCorrelate : Bool := false
  gauges : Bool := false
  table : Bool := false
  generateAlerts : Bool := false
  counterExprTmpl : String := ""
  gaugeExprTmpl : String := ""
  summaryExprTmpl : String := ""
  delimiter : String := ""
  counterLegend : String := ""
  gaugeLegend : String := ""
  summaryLegend : String := ""
  description : String := ""
deriving DecidableEq

/-! ## `pkg/prometheus/parser.go`: classifier and ingestion -/

/-- `detectVendorPrefix` (parser.go:133-195): Juniper JTIMON detection by
help marker or leading underscore, then known prefixes, then custom
prefixes, first match wins. -/
def detectVendorPrefix (knownPs customPs : List String) (m : Metric) : Metric :=
  let name := m.name
  let help := m.help
  if containsS help "JTIMON Metric" || startsWithS name "_" then
    let m := { m with vendor := "juniper" }
    if startsWithS name "_components_" then
      let m := { m with subsystem := "components" }
      if containsS name "_cpu_" then { m with category := "cpu" }
      else if containsS name "_memory_" then { m with category := "memory" }
      else if containsS name "_temperature_" then { m with category := "temperature" }
      else if containsS name "_transceiver_" then { m with category := "transceiver" }
      else if containsS name "_power_" then { m with category := "power" }
      else m
    else if startsWithS name "_interfaces_" then
      let m := { m with subsystem := "interfaces" }
      if containsS name "_ethernet_" then { m with category := "ethernet" }
      else if containsS name "_aggregation_" then { m with category := "lag" }
      else if containsS name "_counters_" then { m with category := "counters" }
      else m
    else m
  else
    match knownPs.find? (fun p => startsWithS (toLowerS name) p) with
    | some p =>
      { m with vendor := trimSuffixS p "_",
               subsystem := firstSegS (trimPreS name p) }
    | none =>
      match customPs.find? (fun p => startsWithS (toLowerS name) p) with
      | some p => { m with vendor := trimSuffixS p "_" }
      | none => m

/-- The unit-cue chain of `parseJuniperMetric`'s JTIMON path
(parser.go:203-223). -/
def jtimonUnitChain (m : Metric) : Metric :=
  let name := m.name
  if containsS name "_cpu_" || containsS name "_utilization_" then
    { m with unit := "percent" }
  else if containsS name "_power_" then { m with unit := "dbm" }
  else if containsS name "_temperature_" then { m with unit := "celsius" }
  else if containsS name "_bytes" || containsS name "_octets" then
    { m with unit := "decbytes" }
  else if containsS name "_bits_" then { m with unit := "decbits" }
  else if containsS name "_speed" then { m with unit := "bps" }
  else if containsS name "_packets" || containsS name "_frames" then
    { m with unit := "pps" }
  else if containsS name "_memory_" then { m with unit := "bytes" }
  else if containsS name "_counters_" then { m with unit := "short" }
  else m

/-- The interface-category handling of `parseJuniperMetric`'s JTIMON path
(parser.go:226-238), guarded by a still-empty category. -/
def jtimonCategoryChain (m : Metric) : Metric :=
  let name := m.name
  if containsS name "_interfaces_" then
    if m.category == "" then
      if containsS name "_error" || containsS name "_discard" then
        { m with category := "errors" }
      else if containsS name "_counters_" then { m with category := "counters" }
      else if containsS name "_state_" then { m with category := "state" }
      else if containsS name "_statistics_" then { m with category := "statistics" }
      else m
    else m
  else m

/-- The display-name assignment of `parseJuniperMetric`'s JTIMON path
(parser.go:241-247). -/
def jtimonDisplayChain (m : Metric) : Metric :=
  let name := m.name
  if containsS name "_instant" then
    { m with displayName := replaceFirstS name "_instant" "" }
  else { m with displayName := name }

/-- The category switch of `parseJuniperMetric`'s traditional path
(parser.go:253-269); the temperature case also fixes the unit. -/
def tradSwitchChain (m : Metric) : Metric :=
  let name := m.name
  let subsystem := m.subsystem
  if containsS name "interface" then { m with category := "interfaces" }
  else if containsS name "bgp" || containsS subsystem "bgp" then
    { m with category := "bgp" }
  else if containsS name "ospf" || containsS subsystem "ospf" then
    { m with category := "ospf" }
  else if containsS name "route" || containsS subsystem "route" then
    { m with category := "routing" }
  else if containsS name "memory" || containsS subsystem "memory" then
    { m with category := "memory" }
  else if containsS name "cpu" || containsS subsystem "cpu" then
    { m with category := "cpu" }
  else if containsS name "temperature" || containsS subsystem "temp" then
    { m with category := "temperature", unit := "celsius" }
  else m

/-- The rate-unit / error-category chain of `parseJuniperMetric`'s
traditional path (parser.go:272-280). -/
def tradUnitChain (m : Metric) : Metric :=
  let name := m.name
  if containsS name "bps" || containsS name "bitrate" then { m with unit := "bps" }
  else if containsS name "pps" || containsS name "packetrate" then
    { m with unit := "pps" }
  else if containsS name "error" || containsS name "discard" then
    (if m.mtype == "counter" then { m with category := "errors" } else m)
  else m

/-- `parseJuniperMetric` (parser.go:198-281): a JTIMON (underscore) name
runs the unit-cue chain, the interface-category handling and the
display-name assignment in sequence; other names run the traditional
category switch followed by the rate-unit chain. -/
def parseJuniperMetric (m : Metric) : Metric :=
  if startsWithS m.name "_" then
    jtimonDisplayChain (jtimonCategoryChain (jtimonUnitChain m))
  else
    tradUnitChain (tradSwitchChain m)

/-- `parseCiscoMetric` (parser.go:284-303). -/
def parseCiscoMetric (m : Metric) : Metric :=
  let name := m.name
  let subsystem := m.subsystem
  if containsS name "interface" then { m with category := "interfaces" }
  else if containsS name "bgp" || containsS subsystem "bgp" then
    { m with category := "bgp" }
  else if containsS name "ospf" || containsS subsystem "ospf" then
    { m with category := "ospf" }
  else if containsS name "route" || containsS subsystem "route" then
    { m with category := "routing" }
  else if containsS name "memory" || containsS subsystem "memory" then
    { m with category := "memory" }
  else if containsS name "cpu" || containsS subsystem "cpu" then
    { m with category := "cpu" }
  else m

/-- The per-series classification block of `ParseMetricsWithConfig`
(parser.go:107-118): vendor-prefix detection, then the vendor-specific
enrichment when the matching per-vendor flag is on. -/
def classifyVendor (knownPs customPs : List String) (dj dc : Bool)
    (m : Metric) : Metric :=
  let m := detectVendorPrefix knownPs customPs m
  let m := if dj && m.vendor == "juniper" then parseJuniperMetric m else m
  if dc && m.vendor == "cisco" then parseCiscoMetric m else m

/-- One parsed exposition entry, the core's input alphabet (out-of-scope
tokenizer): a HELP line, a TYPE line, or a series sample whose label map
carries the metric name under `__name__`. -/
inductive Entry where
  | help (name text : String)
  | typ (name t : String)
  | series (labelmap : List (String × String))
deriving DecidableEq

def lookupStr : List (String × String) → String → Option String
  | [], _ => none
  | (k, v) :: rest, n => if k == n then some v else lookupStr rest n

/-- Suffix unification of a series name (parser.go:73-83). -/
def stripNameSuffix (name : String) : String × String :=
  if endsWithS name "_bucket" then ("_bucket", trimSuffixS name "_bucket")
  else if endsWithS name "_sum" then ("_sum", trimSuffixS name "_sum")
  else if endsWithS name "_count" then ("_count", trimSuffixS name "_count")
  else ("", name)

/-- Base unit inference from the stripped name (parser.go:94-104). -/
def unitForName (name : String) (m : Metric) : Metric :=
  if containsS name "_seconds" then { m with unit := "s" }
  else if containsS name "_milliseconds" then { m with unit := "ms" }
  else if containsS name "_bytes" then { m with unit := "decbytes" }
  else if containsS name "_percent" || containsS name "_ratio" then
    { m with unit := "percent" }
  else if containsS name "_count" then { m with unit := "short" }
  else m

/-- Label accumulation over a sample's label map (parser.go:121-125).
The Go map-range order is irrelevant: `addLabel` builds a set. -/
def addLabelsFrom (labelmap : List (String × String)) (m : Metric) : Metric :=
  labelmap.foldl
    (fun m kv => if kv.1 != "__name__" && kv.1 != "" then m.addLabel kv.1 else m) m

/-- One iteration of the entry loop of `ParseMetricsWithConfig`
(parser.go:47-127). -/
def processEntry (dv : Bool) (knownPs customPs : List String) (dj dc : Bool)
    (r : Registry) (e : Entry) : Registry :=
  match e with
  | .help n h => r.set n (Metric.new n h [] "" "" "short")
  | .typ n t => match r.get n with
    | some m => r.set n { m with mtype := t }
    | none => r
  | .series labelmap =>
    let rawName := (lookupStr labelmap "__name__").getD ""
    let sn := stripNameSuffix rawName
    let suffix := sn.1
    let name := sn.2
    let r := if r.has name then r
             else r.set name (Metric.new name "" [] "" suffix "short")
    r.update name (fun metric =>
      let metric := { metric with suffix := suffix }
      let metric := unitForName name metric
      let metric := if dv then classifyVendor knownPs customPs dj dc metric
                    else metric
      addLabelsFrom labelmap metric)

/-- `ParseMetricsWithConfig` over a sequence of parsed entries (a nil
`*config.Config` is `none`; vendor settings only apply when
`VendorConfig.Enabled`). -/
def parseMetricsWithConfig (cfg : Option Config) (entries : List Entry) : Registry :=
  let vc : Option VendorConfig := match cfg with
    | some c => match c.vendorConfig with
      | some v => if v.enabled then some v else none
      | none => none
    | none => none
  match vc with
  | some v =>
    entries.foldl
      (processEntry true v.knownPrefixes v.customPrefixes
        v.juniperEnabled v.ciscoEnabled) Registry.empty
  | none =>
    entries.foldl (processEntry false [] [] false false) Registry.empty

/-- `ParseMetrics`. -/
def parseMetrics (entries : List Entry) : Registry :=
  parseMetricsWithConfig none entries

/-! ## `pkg/query/promql.go`: query and legend composition

The Go `Builder` only carries the configuration, so its methods become
functions taking `Config`. Literal braces in legend strings are written
with their hex escapes. -/

/-- `Builder.buildCounterQuery`. -/
def buildCounterQuery (cfg : Config) (m : Metric) : String :=
  replaceAllS cfg.counterExprTmpl cfg.delimiter (m.name ++ m.suffix)

/-- `Builder.buildGaugeQuery`. -/
def buildGaugeQuery (cfg : Config) (m : Metric) : String :=
  replaceAllS cfg.gaugeExprTmpl cfg.delimiter (m.name ++ m.suffix)

/-- `Builder.buildSummaryQuery` (name only, no suffix). -/
def buildSummaryQuery (cfg : Config) (m : Metric) : String :=
  replaceAllS cfg.summaryExprTmpl cfg.delimiter m.name

/-- `Builder.buildJuniperJtimonQuery` (promql.go:83-106). -/
def buildJuniperJtimonQuery (m : Metric) : String :=
  let metricName := m.name
  if containsS metricName "_counters_" &&
      (containsS metricName "_in_" || containsS metricName "_out_" ||
       containsS metricName "_frames_" || containsS metricName "_drops_" ||
       containsS metricName "_errors_" || containsS metricName "_packets_") then
    "rate(" ++ metricName ++ "[5m])"
  else if containsS metricName "_cpu_" || containsS metricName "_memory_" ||
      containsS metricName "_utilization_" || containsS metricName "_temperature_" then
    metricName
  else
    metricName

/-- `Builder.BuildQuery` (promql.go:25-41). -/
def buildQuery (cfg : Config) (m : Metric) : String :=
  if m.vendor == "juniper" && startsWithS m.name "_" then
    buildJuniperJtimonQuery m
  else if m.mtype == "counter" then buildCounterQuery cfg m
  else if m.mtype == "gauge" then buildGaugeQuery cfg m
  else if m.mtype == "summary" then buildSummaryQuery cfg m
  else m.fullName

/-- One legend clause `label:[{{label}}]`. -/
def legendClause (l : String) : String :=
  l ++ ":[\x7b\x7b" ++ l ++ "\x7d\x7d]"

/-- `Builder.FormatLegend` (promql.go:64-80). -/
def formatLegend (m : Metric) (fallback : String) : String :=
  let labels := m.labelsSorted
  if labels.length == 0 then
    if fallback != "" then fallback else "Job:[\x7b\x7bjob\x7d\x7d]"
  else
    String.intercalate " " (labels.map legendClause)

/-- The priority label list of `Builder.GetLegend`. -/
def jtimonPriorityLabels : List String :=
  ["device", "_interfaces_interface__name", "_components_component__name"]

/-- `Builder.GetLegend` (promql.go:109-147). -/
def getLegend (cfg : Config) (m : Metric) : String :=
  if m.vendor == "juniper" && startsWithS m.name "_" then
    let labels := m.labelsSorted
    let legends :=
      (jtimonPriorityLabels.filter (fun pl => labels.contains pl)).map legendClause
    if labels.length > 0 && legends.length > 0 then
      String.intercalate " " legends
    else
      "Device:[\x7b\x7bdevice\x7d\x7d]"
  else if m.mtype == "counter" then formatLegend m cfg.counterLegend
  else if m.mtype == "gauge" then formatLegend m cfg.gaugeLegend
  else if m.mtype == "summary" then formatLegend m cfg.summaryLegend
  else formatLegend m ""

/-! ## `pkg/grafana/alerts.go`: alert heuristic and alert definitions

Float thresholds become the corresponding rationals. -/

structure AlertThreshold where
  metric : String
  warning : ℚ
  error : ℚ
  notify : Bool
deriving DecidableEq

/-- `generateAlertThreshold` (alerts.go:157-216). -/
def generateAlertThreshold (m : Metric) : Option AlertThreshold :=
  let name := m.name
  if m.mtype == "counter" then
    if containsS name "error" || containsS name "fail" then
      some { metric := name, warning := 1/10, error := 1, notify := true }
    else none
  else if m.mtype == "gauge" then
    if containsS name "cpu" then
      some { metric := name, warning := 80, error := 95, notify := true }
    else if containsS name "memory" || containsS name "mem" then
      some { metric := name, warning := 85, error := 95, notify := true }
    else if containsS name "disk" then
      some { metric := name, warning := 80, error := 90, notify := true }
    else none
  else if m.mtype == "summary" then
    if containsS name "latency" || containsS name "duration" ||
        containsS name "time" then
      some { metric := name, warning := 1000, error := 2000, notify := true }
    else none
  else none

structure AlertTarget where
  refID : String := ""
  datasource : String := ""
  expr : String := ""
deriving DecidableEq

structure AlertEvaluator where
  etype : String := ""
  params : List ℚ := []
deriving DecidableEq

structure AlertCondition where
  ctype : String := ""
  target : AlertTarget := {}
  evaluatorData : AlertEvaluator := {}
  reducerType : String := ""
  operatorType : String := ""
deriving DecidableEq

structure AlertDefinition where
  name : String := ""
  message : String := ""
  handler : Nat := 0
  noDataState : String := ""
  executionErrorState : String := ""
  frequency : String := ""
  forDuration : String := ""
  conditions : List AlertCondition := []
  notifications : List Nat := []
deriving DecidableEq

/-- `createAlertDefinition` (alerts.go:62-124). -/
def createAlertDefinition (name query : String) (warning criticalThreshold : ℚ)
    (notify : Bool) : AlertDefinition :=
  let alert : AlertDefinition :=
    { name := "Alert for " ++ name,
      message := name ++ " is outside acceptable range",
      handler := 1,
      noDataState := "no_data",
      executionErrorState := "alerting",
      frequency := "60s",
      forDuration := "5m",
      conditions := [
        { ctype := "query",
          target := { refID := "A", datasource := "Prometheus", expr := query },
          evaluatorData := { etype := "gt", params := [criticalThreshold] },
          reducerType := "avg",
          operatorType := "" }] }
  let alert :=
    if warning > 0 && warning != criticalThreshold then
      { alert with conditions := alert.conditions ++ [
          { ctype := "query",
            target := { refID := "B", datasource := "Prometheus", expr := query },
            evaluatorData := { etype := "gt", params := [warning] },
            reducerType := "avg",
            operatorType := "or" }] }
    else alert
  if notify then { alert with notifications := [1] } else alert

/-! ## `pkg/grafana/api.go` and `dashboard.go`: panels and dashboards

`Panel` keeps the fields the embedded logic reads or writes: identity,
title/type/description, grid position, query targets, unit (standing for
`YAxes[0].Format` and the field-options unit, which `SetUnit` keeps in
sync), datasource, the optional alert, and the table-legend toggle.  The
purely cosmetic rendering constants of `NewPanel` (axes, line style,
tooltips) take no part in any embedded decision and are omitted. -/

structure PanelGridPos where
  x : Nat := 0
  y : Nat := 0
  h : Nat := 0
  w : Nat := 0
deriving DecidableEq

structure PanelTarget where
  expr : String := ""
  refID : String := ""
  legendFormat : String := ""
  format : String := ""
  datasource : String := ""
deriving DecidableEq

structure Panel where
  gridPos : PanelGridPos := {}
  ptype : String := ""
  title : String := ""
  id : Nat := 0
  targets : List PanelTarget := []
  description : String := ""
  legendAsTable : Bool := false
  unit : String := ""
  datasource : String := ""
  alert : Option AlertDefinition := none
deriving DecidableEq

/-- `NewPanel` (api.go:470-514): graph panel with one empty target `A`
and unit `short`. -/
def NewPanel (title : String) : Panel :=
  { title, ptype := "graph", description := "",
    targets := [{ expr := "", refID := "A", legendFormat := "",
                  format := "time_series" }],
    unit := "short" }

/-- `Panel.SetGridPos(x, y, h, w)`. -/
def Panel.setGridPos (p : Panel) (x y h w : Nat) : Panel :=
  { p with gridPos := { x, y, h, w } }

/-- `Panel.SetType`. -/
def Panel.setType (p : Panel) (t : String) : Panel := { p with ptype := t }

/-- `Panel.SetUnit`. -/
def Panel.setUnit (p : Panel) (u : String) : Panel := { p with unit := u }

/-- `Panel.SetLegendFormat`: applied to every target. -/
def Panel.setLegendFormat (p : Panel) (f : String) : Panel :=
  { p with targets := p.targets.map (fun t => { t with legendFormat := f }) }

/-- `Panel.SetDescription`. -/
def Panel.setDescription (p : Panel) (d : String) : Panel :=
  { p with description := d }

/-- `Panel.SetMetricExpr`: applied to every target. -/
def Panel.setMetricExpr (p : Panel) (e : String) : Panel :=
  { p with targets := p.targets.map (fun t => { t with expr := e }) }

/-- A bare `&Panel{...}` row-header literal as built in `dashboard.go`
(X 0, W 24, H 1, type "row"). -/
def mkRowPanel (title desc : String) (y : Nat) : Panel :=
  { title, ptype := "row", description := desc,
    gridPos := { x := 0, y, h := 1, w := 24 } }

/-- `addAlertToPanel` (alerts.go:127-154). -/
def addAlertToPanel (p : Panel) (alert : AlertDefinition) : Panel :=
  let p := { p with alert := some alert, datasource := "Prometheus" }
  alert.conditions.foldl
    (fun p cond =>
      if p.targets.any (fun t => t.refID == cond.target.refID) then p
      else { p with targets := p.targets ++ [
        { expr := cond.target.expr, refID := cond.target.refID,
          legendFormat := "", format := "time_series",
          datasource := cond.target.datasource }] })
    p

/-- `Dashboard` reduced to the fields the generation logic touches; the
remaining `NewDashboard` fields are run-independent constants. -/
structure Dashboard where
  title : String := ""
  description : String := ""
  panels : List Panel := []
deriving DecidableEq

/-- `NewDashboard`. -/
def NewDashboard (title : String) : Dashboard := { title, panels := [] }

/-- `Dashboard.AddPanel` (dashboard.go:129-133): the panel's ID is the new
length of the panel sequence. -/
def Dashboard.addPanel (d : Dashboard) (p : Panel) : Dashboard :=
  { d with panels := d.panels ++ [{ p with id := d.panels.length + 1 }] }

/-- Folding `AddPanel` over a panel sequence. -/
def Dashboard.addPanels (d : Dashboard) (ps : List Panel) : Dashboard :=
  ps.foldl Dashboard.addPanel d

/-- `createPanelForMetric` (dashboard.go:500-558), for the configuration
surface without a `Visualizations` override block (`cfg.Visualizations ==
nil` in the source, so the `cfg.Gauges` branch selects the type). -/
def createPanelForMetric (m : Metric) (cfg : Config) : Panel :=
  let title :=
    if m.displayNameOrName != m.name then replaceAllS m.displayNameOrName "_" " "
    else replaceAllS m.name "_" " "
  let p := NewPanel title
  let p := p.setDescription m.help
  let p := p.setUnit m.unit
  let p := if cfg.table then { p with legendAsTable := true } else p
  let expr := buildQuery cfg m
  let p := p.setMetricExpr expr
  let p := p.setLegendFormat (getLegend cfg m)
  let p := if cfg.gauges && m.mtype == "gauge" then p.setType "gauge"
           else p.setType "graph"
  if cfg.generateAlerts then
    match generateAlertThreshold m with
    | some th =>
      addAlertToPanel p
        (createAlertDefinition m.name expr th.warning th.error th.notify)
    | none => p
  else p

/-! ## Layout engine (`dashboard.go` generation strategies) -/

/-- `PanelGridLayout` (api.go:442-446). -/
structure PanelGridLayout where
  x : Nat := 0
  y : Nat := 0
  count : Nat := 0
deriving DecidableEq

/-- `NewPanelGridLayout`. -/
def NewPanelGridLayout : PanelGridLayout := {}

/-- `PanelGridLayout.UpdateY` (api.go:454-457). -/
def PanelGridLayout.updateY (p : PanelGridLayout) (dy : Nat) : PanelGridLayout :=
  { p with y := p.y + dy, count := p.count + 1 }

/-- `PanelGridLayout.UpdateX` (api.go:460-467): a positive delta advances
x and the counter; zero resets x without touching the counter. -/
def PanelGridLayout.updateX (p : PanelGridLayout) (dx : Nat) : PanelGridLayout :=
  if dx > 0 then { p with x := p.x + dx, count := p.count + 1 }
  else { p with x := 0 }

/-- The metric loop of `generateStandard` (dashboard.go:176-198), emitting
the placed panels in `ForEach` order. -/
def genStdLoop (cfg : Config) : List Metric → PanelGridLayout → List Panel
  | [], _ => []
  | m :: ms, g =>
    let panel := (createPanelForMetric m cfg).setGridPos g.x g.y 8 12
    let g' := if g.count % 2 < 1 then (g.updateX 0).updateY 9 else g.updateX 12
    panel :: genStdLoop cfg ms g'

/-- The panel sequence appended by `generateStandard`. -/
def generateStandardPanels (r : Registry) (cfg : Config) : List Panel :=
  genStdLoop cfg r.metricsInOrder NewPanelGridLayout

/-- `generateStandard` acting on a dashboard. -/
def generateStandard (d : Dashboard) (r : Registry) (cfg : Config) : Dashboard :=
  d.addPanels (generateStandardPanels r cfg)

/-- Panel width for grouped placement: `24 / PanelsPerRow` when label
grouping is configured with a positive panels-per-row, else 12. -/
def panelWidthFrom (lg : Option LabelGrouping) : Nat :=
  match lg with
  | some g => if g.panelsPerRow > 0 then 24 / g.panelsPerRow else 12
  | none => 12

/-- Whether grouped placement wraps on a panels-per-row boundary. -/
def wrapFlagFrom (lg : Option LabelGrouping) : Bool :=
  match lg with
  | some g => g.panelsPerRow > 0
  | none => false

/-- Panels-per-row value (0 when unset). -/
def pprFrom (lg : Option LabelGrouping) : Nat :=
  match lg with
  | some g => g.panelsPerRow
  | none => 0

/-- The shared left-to-right placement loop of the grouped strategies
(dashboard.go:246-271, 313-341, 426-453, 461-489): place each metric
panel at the cursor, advance x by the width, and wrap to a fresh row of
height 8 after every `ppr` panels when wrapping is enabled. Returns the
panels together with the final x and y cursor. -/
def placeLoop (cfg : Config) (doWrap : Bool) (ppr width : Nat) :
    List Metric → Nat → Nat → Nat → List Panel × Nat × Nat
  | [], x, y, _ => ([], x, y)
  | m :: ms, x, y, count =>
    let panel := (createPanelForMetric m cfg).setGridPos x y 8 width
    let x' := x + width
    let count' := count + 1
    let next := if doWrap && count' % ppr == 0 then (0, y + 8) else (x', y)
    let rest := placeLoop cfg doWrap ppr width ms next.1 next.2 count'
    (panel :: rest.1, rest.2)

/-- Append a metric to its group bucket, creating the bucket at the end on
first sight (Go `groups[key] = append(groups[key], metric)`). -/
def upsertGroup : List (String × List Metric) → String → Metric →
    List (String × List Metric)
  | [], k, m => [(k, [m])]
  | (k', ms) :: rest, k, m =>
    if k' == k then (k', ms ++ [m]) :: rest
    else (k', ms) :: upsertGroup rest k m

/-- Group key of a metric (dashboard.go:209-221): colon-joined group-by
labels present on the metric, or "other". -/
def groupKeyFor (lbls : List String) (m : Metric) : String :=
  let k := lbls.foldl
    (fun acc ln =>
      if m.hasLabel ln then (if acc != "" then acc ++ ":" else acc) ++ ln
      else acc) ""
  if k == "" then "other" else k

/-- `generateWithLabelGroups` (dashboard.go:201-280) as a panel sequence.
`ord` is the iteration-order oracle for the Go `range` over the group
map: one oracle value models one run. The function is only dispatched to
with a non-nil `LabelGrouping`; the `getD` default covers totality. -/
def generateWithLabelGroupsPanels
    (ord : List (String × List Metric) → List (String × List Metric))
    (r : Registry) (cfg : Config) : List Panel :=
  let lg := cfg.labelGrouping.getD {}
  let groups := r.metricsInOrder.foldl
    (fun gs m => upsertGroup gs (groupKeyFor lg.groupByLabels m) m) []
  let base : List Panel × Nat := ([], 0)
  let result := (ord groups).foldl
    (fun acc g =>
      let yPos := acc.2
      let hdr :=
        if lg.separateRows then
          ([mkRowPanel (replaceAllS g.1 ":" " ") ("Metrics grouped by " ++ g.1) yPos],
           yPos + 1)
        else ([], yPos)
      let placed := placeLoop cfg (lg.panelsPerRow > 0) lg.panelsPerRow
        (if lg.panelsPerRow > 0 then 24 / lg.panelsPerRow else 12)
        g.2 0 hdr.2 0
      let yEnd :=
        if placed.2.1 > 0 then placed.2.2 + 8
        else if g.2.length > 0 then placed.2.2 + 1
        else placed.2.2
      (acc.1 ++ hdr.1 ++ placed.1, yEnd))
    base
  result.1

/-- The vendor-code to display-name table of `generateWithVendorGroups`
(dashboard.go:357-375). -/
def vendorTitleOf (vendor : String) : String :=
  if vendor == "juniper" then "Juniper Networks"
  else if vendor == "cisco" then "Cisco Systems"
  else if vendor == "arista" then "Arista Networks"
  else if vendor == "huawei" then "Huawei Technologies"
  else if vendor == "paloalto" then "Palo Alto Networks"
  else if vendor == "fortinet" then "Fortinet"
  else if vendor == "f5" then "F5 Networks"
  else if vendor == "checkpoint" then "Check Point"
  else vendor

/-- One vendor section of `generateWithVendorGroups` (dashboard.go:350-496):
vendor row header, then either per-category sub-rows (when the vendor's
metrics span more than one category bucket, iterated in the oracle's
order) or a flat placement. Returns the section's panels and the final y
cursor. -/
def vendorSection
    (ordCat : List (String × List Metric) → List (String × List Metric))
    (r : Registry) (cfg : Config) (v : String) (yStart : Nat) :
    List Panel × Nat :=
  let vms := r.filterByVendor v
  if vms.count == 0 then ([], yStart)
  else
    let vendorTitle := vendorTitleOf v
    let header := mkRowPanel vendorTitle ("Metrics for " ++ vendorTitle) yStart
    let y := yStart + 1
    let cats := vms.metricsInOrder.foldl
      (fun gs m =>
        upsertGroup gs (if m.category == "" then "other" else m.category) m) []
    if cats.length > 1 then
      let folded := (ordCat cats).foldl
        (fun (acc : List Panel × Nat) c =>
          if c.2.length == 0 then acc
          else
            let catTitle := upperFirstS c.1
            let chdr := mkRowPanel catTitle
              (catTitle ++ " metrics for " ++ vendorTitle) acc.2
            let placed := placeLoop cfg (wrapFlagFrom cfg.labelGrouping)
              (pprFrom cfg.labelGrouping) (panelWidthFrom cfg.labelGrouping)
              c.2 0 (acc.2 + 1) 0
            let yEnd := if placed.2.1 > 0 then placed.2.2 + 8 else placed.2.2
            (acc.1 ++ chdr :: placed.1, yEnd))
        ([], y)
      (header :: folded.1, folded.2)
    else
      let placed := placeLoop cfg (wrapFlagFrom cfg.labelGrouping)
        (pprFrom cfg.labelGrouping) (panelWidthFrom cfg.labelGrouping)
        vms.metricsInOrder 0 y 0
      let yEnd := if placed.2.1 > 0 then placed.2.2 + 8 else placed.2.2
      (header :: placed.1, yEnd)

/-- `generateWithVendorGroups` (dashboard.go:290-497) as a panel
sequence: the un-vendored "General Metrics" section first (when any
metric has an empty vendor), then one section per vendor in
`ListVendors` (sorted) order. `ordCat` is the iteration-order oracle for
the per-vendor Go `range` over the category map. -/
def generateWithVendorGroupsPanels
    (ordCat : List (String × List Metric) → List (String × List Metric))
    (r : Registry) (cfg : Config) : List Panel :=
  let vendors := r.listVendors
  let nonVendor := r.filter (fun _ m => m.vendor == "")
  let gen : List Panel × Nat :=
    if nonVendor.count > 0 then
      let header := mkRowPanel "General Metrics"
        "General metrics with no vendor prefix" 0
      let placed := placeLoop cfg (wrapFlagFrom cfg.labelGrouping)
        (pprFrom cfg.labelGrouping) (panelWidthFrom cfg.labelGrouping)
        nonVendor.metricsInOrder 0 1 0
      let yEnd := if placed.2.1 > 0 then placed.2.2 + 8 else placed.2.2
      (header :: placed.1, yEnd)
    else ([], 0)
  let folded := vendors.foldl
    (fun (acc : List Panel × Nat) v =>
      let sec := vendorSection ordCat r cfg v acc.2
      (acc.1 ++ sec.1, sec.2))
    ([], gen.2)
  gen.1 ++ folded.1

/-- `Dashboard.Generate` (dashboard.go:154-173): strategy dispatch.
`generateWithCorrelation` is a stub that falls through to the standard
layout (dashboard.go:283-287), embedded as such. `lgOrd` and `catOrd`
are the two map-iteration oracles. -/
def Generate
    (lgOrd catOrd : List (String × List Metric) → List (String × List Metric))
    (d : Dashboard) (r : Registry) (cfg : Config) : Dashboard :=
  let d := { d with description := cfg.description }
  let vendorGrouping := match cfg.vendorConfig with
    | some vc => vc.enabled && vc.groupByVendor
    | none => false
  if vendorGrouping && r.listVendors.length > 0 then
    d.addPanels (generateWithVendorGroupsPanels catOrd r cfg)
  else if cfg.autoCorrelate then
    d.addPanels (generateStandardPanels r cfg)
  else
    match cfg.labelGrouping with
    | some lg =>
      if lg.groupByLabels.length > 0 then
        d.addPanels (generateWithLabelGroupsPanels lgOrd r cfg)
      else d.addPanels (generateStandardPanels r cfg)
    | none => d.addPanels (generateStandardPanels r cfg)

/-! ## Concrete fixtures used by witnesses and counterexamples -/

/-- Modelled from the spec: the default configuration values produced by
`config.New` (package `internal/config` is not among the sources; its
defaults are fixed by the spec's §4.2/§8 — counter template
`sum(rate(:METRIC: [1m]))`, identity gauge/summary templates, delimiter
`:METRIC:`, per-type fallback legends `Job:[{{job}}]` — and exercised by
`builder_test.go`). -/
def cfgDefaults : Config :=
  { counterExprTmpl := "sum(rate(:METRIC: [1m]))",
    gaugeExprTmpl := ":METRIC:",
    summaryExprTmpl := ":METRIC:",
    delimiter := ":METRIC:",
    counterLegend := "Job:[\x7b\x7bjob\x7d\x7d]",
    gaugeLegend := "Job:[\x7b\x7bjob\x7d\x7d]",
    summaryLegend := "Job:[\x7b\x7bjob\x7d\x7d]" }

/-- Two unclassified metrics, registered under their names. -/
def regFlat2 : Registry :=
  ⟨[("am", Metric.new "am" "" [] "" "" ""),
    ("bm", Metric.new "bm" "" [] "" "" "")]⟩

/-- Three unclassified metrics. -/
def regFlat3 : Registry :=
  ⟨[("am", Metric.new "am" "" [] "" "" ""),
    ("bm", Metric.new "bm" "" [] "" "" ""),
    ("cm", Metric.new "cm" "" [] "" "" "")]⟩

/-! ## C6 — counter query round trip -/

/-- C6: with the default counter template `sum(rate(:METRIC: [1m]))` and
delimiter `:METRIC:`, composing the query of a counter named
`http_requests_total` with suffix `_total` yields exactly
`sum(rate(http_requests_total_total [1m]))`; no vendor override can apply
because the name does not start with an underscore. -/
theorem c6_counter_query_roundtrip (m : Metric) (cfg : Config)
    (hn : m.name = "http_requests_total") (hs : m.suffix = "_total")
    (ht : m.mtype = "counter")
    (htm : cfg.counterExprTmpl = "sum(rate(:METRIC: [1m]))")
    (hd : cfg.delimiter = ":METRIC:") :
    buildQuery cfg m = "sum(rate(http_requests_total_total [1m]))" := by
  have hu : startsWithS "http_requests_total" "_" = false := by decide
  simp [buildQuery, hn, hs, ht, hu, buildCounterQuery, htm, hd]
  decide

/-- Witness for C6 at a concrete metric and the default configuration. -/
theorem c6_witness :
    buildQuery cfgDefaults
      (Metric.new "http_requests_total" "" [] "counter" "_total" "") =
      "sum(rate(http_requests_total_total [1m]))" :=
  c6_counter_query_roundtrip _ _ rfl rfl rfl rfl rfl

/-! ## C7 — counter alert heuristic -/

/-- C7: for every counter-typed metric, the alert heuristic returns the
threshold (warning 1/10, critical 1, notify) exactly when the name
contains "error" or "fail", and no alert otherwise. -/
theorem c7_counter_alert_threshold (m : Metric) (h : m.mtype = "counter") :
    generateAlertThreshold m =
      (if containsS m.name "error" || containsS m.name "fail" then
        some { metric := m.name, warning := 1/10, error := 1, notify := true }
      else none) := by
  simp [generateAlertThreshold, h]

/-- Witness for C7: the counter `http_requests_errors_total` yields
warning 0.1, critical 1.0, notify. -/
theorem c7_witness :
    generateAlertThreshold
      (Metric.new "http_requests_errors_total" "" [] "counter" "" "") =
      some { metric := "http_requests_errors_total", warning := 1/10,
             error := 1, notify := true } := by
  have h := c7_counter_alert_threshold
    (Metric.new "http_requests_errors_total" "" [] "counter" "" "") rfl
  rw [h, if_pos (by decide)]
  rfl

/-! ## C10 — sequential panel identifiers -/

/-- The effect of a sequence of `AddPanel` calls on the panel list:
each appended panel gets the successor of the running length as its ID. -/
def withIds : List Panel → Nat → List Panel
  | [], _ => []
  | p :: ps, n => { p with id := n + 1 } :: withIds ps (n + 1)

theorem withIds_length : ∀ (ps : List Panel) (n : Nat),
    (withIds ps n).length = ps.length := by
  intro ps
  induction ps with
  | nil => intro n; rfl
  | cons p ps ih => intro n; simp [withIds, ih]

theorem addPanels_panels : ∀ (ps : List Panel) (d : Dashboard),
    (d.addPanels ps).panels = d.panels ++ withIds ps d.panels.length := by
  intro ps
  induction ps with
  | nil => intro d; simp [Dashboard.addPanels, withIds]
  | cons p ps ih =>
    intro d
    show ((d.addPanel p).addPanels ps).panels = _
    rw [ih]
    simp [Dashboard.addPanel, withIds]

theorem withIds_getElem : ∀ (ps : List Panel) (n i : Nat)
    (h : i < (withIds ps n).length),
    (withIds ps n)[i] =
      { ps.get ⟨i, by rw [← withIds_length ps n]; exact h⟩ with id := n + i + 1 } := by
  intro ps
  induction ps with
  | nil => intro n i h; simp [withIds] at h
  | cons p ps ih =>
    intro n i h
    cases i with
    | zero => simp [withIds]
    | succ j =>
      have h' : j < (withIds ps (n + 1)).length := by
        simp only [withIds, List.length_cons] at h; omega
      show (withIds ps (n + 1))[j] = _
      rw [ih (n + 1) j h']
      simp only [List.getElem_cons_succ]
      congr 2
      omega

/-- C10: starting from a fresh dashboard, after any sequence of
`AddPanel` calls the panel at 0-based position `i` has ID `i + 1`; hence
IDs are exactly the consecutive range `1..N`. -/
theorem c10_panel_ids_sequential (t : String) (ps : List Panel) (i : Nat)
    (h : i < ((NewDashboard t).addPanels ps).panels.length) :
    ((NewDashboard t).addPanels ps).panels[i].id = i + 1 := by
  have hp : ((NewDashboard t).addPanels ps).panels = withIds ps 0 :=
    addPanels_panels ps (NewDashboard t)
  have h2 : i < (withIds ps 0).length := by rw [← hp]; exact h
  have hg : ((NewDashboard t).addPanels ps).panels[i] = (withIds ps 0)[i] := by
    congr 1
  rw [hg, withIds_getElem ps 0 i h2]
  simp

/-- Witness for C10 with three panels (a metric panel, a row panel and
another metric panel) and position 2. -/
theorem c10_witness :
    (((NewDashboard "d").addPanels
      [NewPanel "a", mkRowPanel "r" "rd" 0, NewPanel "b"]).panels.get
        ⟨2, by decide⟩).id = 3 :=
  c10_panel_ids_sequential "d" [NewPanel "a", mkRowPanel "r" "rd" 0, NewPanel "b"]
    2 (by decide)

/-! ## C5 — legend fallback for label-free metrics -/

/-- The configured per-type fallback legend the claim refers to
(empty for a type with no configured fallback). -/
def typeFallback (cfg : Config) (t : String) : String :=
  if t == "counter" then cfg.counterLegend
  else if t == "gauge" then cfg.gaugeLegend
  else if t == "summary" then cfg.summaryLegend
  else ""

/-- C5 counterexample: a label-free Juniper JTIMON metric (vendor
"juniper", name starting with an underscore) gets the vendor legend
`Device:[{{device}}]`, not the configured counter fallback
`Job:[{{job}}]` — the claim as stated is false for it. -/
theorem c5_counterexample :
    ({ Metric.new "_ifx" "" [] "counter" "" "" with
        vendor := "juniper" } : Metric).labels = [] ∧
    cfgDefaults.counterLegend = "Job:[\x7b\x7bjob\x7d\x7d]" ∧
    getLegend cfgDefaults
      { Metric.new "_ifx" "" [] "counter" "" "" with vendor := "juniper" } =
      "Device:[\x7b\x7bdevice\x7d\x7d]" ∧
    getLegend cfgDefaults
      { Metric.new "_ifx" "" [] "counter" "" "" with vendor := "juniper" } ≠
      cfgDefaults.counterLegend := by
  refine ⟨rfl, rfl, by decide, by decide⟩

/-- C5 as amended: for every metric with an empty label set, the legend
is the configured per-type fallback — `Job:[{{job}}]` when that fallback
is empty or the type has none — unless the vendor override path applies
(vendor "juniper" and a name starting with "_"), in which case it is
`Device:[{{device}}]`. -/
theorem c5_empty_label_legend (cfg : Config) (m : Metric)
    (h : m.labels = []) :
    getLegend cfg m =
      (if m.vendor == "juniper" && startsWithS m.name "_" then
        "Device:[\x7b\x7bdevice\x7d\x7d]"
      else if typeFallback cfg m.mtype != "" then typeFallback cfg m.mtype
      else "Job:[\x7b\x7bjob\x7d\x7d]") := by
  have hl : m.labelsSorted = [] := by
    simp [Metric.labelsSorted, h, sortStrings, List.insertionSort]
  unfold getLegend typeFallback
  rw [hl]
  by_cases hj : (m.vendor == "juniper" && startsWithS m.name "_") = true
  · simp [hj]
  · simp only [Bool.not_eq_true] at hj
    simp only [hj, Bool.false_eq_true, if_false]
    by_cases hc : (m.mtype == "counter") = true
    · simp [hc, formatLegend, hl]
    · simp only [Bool.not_eq_true] at hc
      simp only [hc, Bool.false_eq_true, if_false]
      by_cases hg : (m.mtype == "gauge") = true
      · simp [hg, formatLegend, hl]
      · simp only [Bool.not_eq_true] at hg
        simp only [hg, Bool.false_eq_true, if_false]
        by_cases hs : (m.mtype == "summary") = true
        · simp [hs, formatLegend, hl]
        · simp only [Bool.not_eq_true] at hs
          simp only [hs, Bool.false_eq_true, if_false]
          simp [formatLegend, hl]

/-- Witness for the amended C5: a label-free gauge with an empty
configured gauge legend falls back to `Job:[{{job}}]`. -/
theorem c5_witness :
    getLegend { cfgDefaults with gaugeLegend := "" }
      (Metric.new "node_memory_usage" "" [] "gauge" "" "") =
      "Job:[\x7b\x7bjob\x7d\x7d]" := by
  have h := c5_empty_label_legend { cfgDefaults with gaugeLegend := "" }
    (Metric.new "node_memory_usage" "" [] "gauge" "" "") rfl
  rw [h]
  decide

/-! ## C1 — HELP arriving after series entries -/

/-- C1: after a series entry and a TYPE entry for `foo`, the registry
holds the accumulated label set and type; a subsequent HELP entry for the
same name replaces the whole Metric (parser.go:57 `registry.Set` on
`EntryHelp`), resetting the label set and type instead of preserving
them. -/
theorem c1_help_resets_metric :
    ((parseMetrics [Entry.series [("__name__", "foo"), ("a", "x")],
        Entry.typ "foo" "counter"]).get "foo").map
      (fun m => (m.labels, m.mtype)) = some (["a"], "counter") ∧
    ((parseMetrics [Entry.series [("__name__", "foo"), ("a", "x")],
        Entry.typ "foo" "counter", Entry.help "foo" "h"]).get "foo").map
      (fun m => (m.labels, m.mtype, m.help)) = some ([], "", "h") := by
  constructor <;> decide

/-! ## C2 — series entries without a metric name -/

/-- C2: a series entry whose label set lacks `__name__` is not skipped:
the parser registers a Metric under the empty-string key and attaches the
entry's labels to it. -/
theorem c2_empty_name_not_skipped :
    (parseMetrics [Entry.series [("a", "x")]]).has "" = true ∧
    (parseMetrics [Entry.series [("a", "x")]]).count = 1 ∧
    ((parseMetrics [Entry.series [("a", "x")]]).get "").map
      (fun m => m.labels) = some ["a"] := by
  refine ⟨by decide, by decide, by decide⟩

/-! ## C3 — flat (standard) layout grid positions -/

/-- Closed form of the `PanelGridLayout` cursor before placing the i-th
panel of the flat layout: the staircase produced by the
`UpdateX(0); UpdateY(9)` / `UpdateX(12)` alternation. -/
def stdState (i : Nat) : PanelGridLayout :=
  { x := if i = 0 then 0 else if i % 2 = 1 then 0 else 12,
    y := 9 * ((i + 1) / 2),
    count := i }

theorem stdState_zero : NewPanelGridLayout = stdState 0 := by
  simp [NewPanelGridLayout, stdState]

theorem stdState_step (i : Nat) :
    (if (stdState i).count % 2 < 1 then ((stdState i).updateX 0).updateY 9
     else (stdState i).updateX 12) = stdState (i + 1) := by
  unfold stdState PanelGridLayout.updateX PanelGridLayout.updateY
  simp only [PanelGridLayout.mk.injEq]
  split_ifs <;> simp_all <;> omega

theorem genStdLoop_length (cfg : Config) :
    ∀ (ms : List Metric) (g : PanelGridLayout),
    (genStdLoop cfg ms g).length = ms.length := by
  intro ms
  induction ms with
  | nil => intro g; rfl
  | cons m ms ih => intro g; simp [genStdLoop, ih]

theorem genStdLoop_gridPos (cfg : Config) :
    ∀ (ms : List Metric) (i j : Nat), j < ms.length →
    ((genStdLoop cfg ms (stdState i))[j]?).map (fun p => p.gridPos) =
      some { x := (stdState (i + j)).x, y := (stdState (i + j)).y,
             h := 8, w := 12 } := by
  intro ms
  induction ms with
  | nil => intro i j h; simp at h
  | cons m ms ih =>
    intro i j h
    have hcons : genStdLoop cfg (m :: ms) (stdState i) =
        ((createPanelForMetric m cfg).setGridPos (stdState i).x (stdState i).y 8 12)
          :: genStdLoop cfg ms (stdState (i + 1)) := by
      rw [genStdLoop, stdState_step]
    rw [hcons]
    cases j with
    | zero => simp [Panel.setGridPos]
    | succ k =>
      have hk : k < ms.length := by simpa using h
      have hrec := ih (i + 1) k hk
      have he : i + (k + 1) = (i + 1) + k := by omega
      rw [he]
      simpa only [List.getElem?_cons_succ] using hrec

/-- C3 counterexample: on a two-metric registry the panel at position 1
has x = 0 (the claim requires x = 12 for odd positions) and its y differs
from panel 0's y (the claim requires positions 0 and 1 to share a row). -/
theorem c3_counterexample :
    ((generateStandardPanels regFlat2 cfgDefaults)[1]?).map
      (fun p => p.gridPos.x) = some 0 ∧
    ((generateStandardPanels regFlat2 cfgDefaults)[0]?).map
        (fun p => p.gridPos.y) = some 0 ∧
    ((generateStandardPanels regFlat2 cfgDefaults)[1]?).map
        (fun p => p.gridPos.y) = some 9 := by
  refine ⟨by decide, by decide, by decide⟩

/-- C3 as amended: in the flat layout the panel at 0-based position i
has x = 0 for i = 0 and for odd i, x = 12 for even i ≥ 2, and
y = 9⋅⌈i/2⌉ — so the row advances by 9 once every two panels, but the
pairs sharing a row are (1,2), (3,4), …, with panel 0 alone on the first
row; every panel is 12 wide and 8 high. -/
theorem c3_flat_layout_positions (r : Registry) (cfg : Config) (i : Nat)
    (h : i < (generateStandardPanels r cfg).length) :
    ((generateStandardPanels r cfg)[i]?).map (fun p => p.gridPos) =
      some { x := if i = 0 then 0 else if i % 2 = 1 then 0 else 12,
             y := 9 * ((i + 1) / 2), h := 8, w := 12 } := by
  have hlen : (generateStandardPanels r cfg).length = r.metricsInOrder.length := by
    unfold generateStandardPanels
    exact genStdLoop_length cfg _ _
  have hi : i < r.metricsInOrder.length := hlen ▸ h
  have := genStdLoop_gridPos cfg r.metricsInOrder 0 i hi
  unfold generateStandardPanels
  rw [stdState_zero, this]
  simp only [stdState, Nat.zero_add]

/-- Witness for the amended C3: on a three-metric registry the panel at
position 2 sits at (12, 9). -/
theorem c3_witness :
    ((generateStandardPanels regFlat3 cfgDefaults)[2]?).map
      (fun p => p.gridPos) = some { x := 12, y := 9, h := 8, w := 12 } := by
  have h := c3_flat_layout_positions regFlat3 cfgDefaults 2 (by decide)
  rw [h]
  norm_num

/-! ## C4 — determinism of dashboard assembly -/

/-- Registry with two metrics falling into two different label groups. -/
def regLG : Registry :=
  ⟨[("am", Metric.new "am" "" ["la"] "" "" ""),
    ("bm", Metric.new "bm" "" ["lb"] "" "" "")]⟩

/-- Configuration selecting the label-grouped strategy with row
separation. -/
def cfgLG : Config :=
  { cfgDefaults with
    labelGrouping := some
      { groupByLabels := ["la", "lb"], separateRows := true, panelsPerRow := 0 } }

/-- C4 refutation: the label-grouped strategy iterates the Go group map
with `range`, whose order is unspecified; two runs whose map iteration
orders differ (here: identity versus reversed, both permutations of the
group entries) produce different panel sequences — the first run emits
the "la" row header first, the second the "lb" header. -/
theorem c4_label_group_order_nondeterministic :
    Generate (fun l => l) (fun l => l) (NewDashboard "t") regLG cfgLG ≠
      Generate (fun l => List.reverse l) (fun l => l) (NewDashboard "t") regLG cfgLG ∧
    (∀ (l : List (String × List Metric)), (List.reverse l).Perm l) :=
  ⟨by decide, fun l => List.reverse_perm l⟩

/-! ## C9 — classifier idempotence

The classifier functions are brought into a per-field normal form: each
written field becomes a pure function of the fields the source reads,
with the unwritten value passed through. The normal-form lemmas are
proved by exhaustive branch analysis, and idempotence is assembled from
fixpoint lemmas on the field functions. -/

/-- Vendor field of `detectVendorPrefix` as a function of its inputs. -/
def dVendorF (knownPs customPs : List String) (name help vendor : String) : String :=
  if containsS help "JTIMON Metric" || startsWithS name "_" then "juniper"
  else match knownPs.find? (fun p => startsWithS (toLowerS name) p) with
    | some p => trimSuffixS p "_"
    | none => match customPs.find? (fun p => startsWithS (toLowerS name) p) with
      | some p => trimSuffixS p "_"
      | none => vendor

/-- Subsystem field of `detectVendorPrefix`. -/
def dSubsystemF (knownPs : List String) (name help subsystem : String) : String :=
  if containsS help "JTIMON Metric" || startsWithS name "_" then
    if startsWithS name "_components_" then "components"
    else if startsWithS name "_interfaces_" then "interfaces"
    else subsystem
  else match knownPs.find? (fun p => startsWithS (toLowerS name) p) with
    | some p => firstSegS (trimPreS name p)
    | none => subsystem

/-- Category field of `detectVendorPrefix`. -/
def dCategoryF (name help category : String) : String :=
  if containsS help "JTIMON Metric" || startsWithS name "_" then
    if startsWithS name "_components_" then
      if containsS name "_cpu_" then "cpu"
      else if containsS name "_memory_" then "memory"
      else if containsS name "_temperature_" then "temperature"
      else if containsS name "_transceiver_" then "transceiver"
      else if containsS name "_power_" then "power"
      else category
    else if startsWithS name "_interfaces_" then
      if containsS name "_ethernet_" then "ethernet"
      else if containsS name "_aggregation_" then "lag"
      else if containsS name "_counters_" then "counters"
      else category
    else category
  else category

theorem detect_nf (knownPs customPs : List String) (m : Metric) :
    detectVendorPrefix knownPs customPs m =
      { m with vendor := dVendorF knownPs customPs m.name m.help m.vendor,
               subsystem := dSubsystemF knownPs m.name m.help m.subsystem,
               category := dCategoryF m.name m.help m.category } := by
  unfold detectVendorPrefix dVendorF dSubsystemF dCategoryF
  dsimp only
  by_cases hjt : (containsS m.help "JTIMON Metric" || startsWithS m.name "_") = true
  · simp only [hjt, if_true]
    split_ifs <;> rfl
  · simp only [Bool.not_eq_true] at hjt
    simp only [hjt, Bool.false_eq_true, if_false]
    rcases hfk : List.find? (fun p => startsWithS (toLowerS m.name) p) knownPs with _ | p
    · rcases hfc : List.find? (fun p => startsWithS (toLowerS m.name) p) customPs with _ | q
      · rfl
      · rfl
    · rfl

/-- Unit field of the JTIMON unit chain. -/
def jtUnitF (name unit : String) : String :=
  if containsS name "_cpu_" || containsS name "_utilization_" then "percent"
  else if containsS name "_power_" then "dbm"
  else if containsS name "_temperature_" then "celsius"
  else if containsS name "_bytes" || containsS name "_octets" then "decbytes"
  else if containsS name "_bits_" then "decbits"
  else if containsS name "_speed" then "bps"
  else if containsS name "_packets" || containsS name "_frames" then "pps"
  else if containsS name "_memory_" then "bytes"
  else if containsS name "_counters_" then "short"
  else unit

theorem jtimonUnitChain_nf (m : Metric) :
    jtimonUnitChain m = { m with unit := jtUnitF m.name m.unit } := by
  unfold jtimonUnitChain jtUnitF
  dsimp only
  split_ifs <;> rfl

/-- Category field of the JTIMON interface-category chain. -/
def jtCatF (name category : String) : String :=
  if containsS name "_interfaces_" then
    if category == "" then
      if containsS name "_error" || containsS name "_discard" then "errors"
      else if containsS name "_counters_" then "counters"
      else if containsS name "_state_" then "state"
      else if containsS name "_statistics_" then "statistics"
      else category
    else category
  else category

theorem jtimonCategoryChain_nf (m : Metric) :
    jtimonCategoryChain m = { m with category := jtCatF m.name m.category } := by
  unfold jtimonCategoryChain jtCatF
  dsimp only
  split_ifs <;> rfl

/-- Display-name field of the JTIMON display chain. -/
def jtDispF (name : String) : String :=
  if containsS name "_instant" then replaceFirstS name "_instant" "" else name

theorem jtimonDisplayChain_nf (m : Metric) :
    jtimonDisplayChain m = { m with displayName := jtDispF m.name } := by
  unfold jtimonDisplayChain jtDispF
  dsimp only
  split_ifs <;> rfl

/-- Category field of the traditional category switch. -/
def swCatF (name subsystem category : String) : String :=
  if containsS name "interface" then "interfaces"
  else if containsS name "bgp" || containsS subsystem "bgp" then "bgp"
  else if containsS name "ospf" || containsS subsystem "ospf" then "ospf"
  else if containsS name "route" || containsS subsystem "route" then "routing"
  else if containsS name "memory" || containsS subsystem "memory" then "memory"
  else if containsS name "cpu" || containsS subsystem "cpu" then "cpu"
  else if containsS name "temperature" || containsS subsystem "temp" then
    "temperature"
  else category

/-- Unit field of the traditional category switch (written only by the
temperature case, which is reached when no earlier case matches). -/
def swUnitF (name subsystem unit : String) : String :=
  if containsS name "interface" then unit
  else if containsS name "bgp" || containsS subsystem "bgp" then unit
  else if containsS name "ospf" || containsS subsystem "ospf" then unit
  else if containsS name "route" || containsS subsystem "route" then unit
  else if containsS name "memory" || containsS subsystem "memory" then unit
  else if containsS name "cpu" || containsS subsystem "cpu" then unit
  else if containsS name "temperature" || containsS subsystem "temp" then
    "celsius"
  else unit

theorem tradSwitchChain_nf (m : Metric) :
    tradSwitchChain m =
      { m with category := swCatF m.name m.subsystem m.category,
               unit := swUnitF m.name m.subsystem m.unit } := by
  unfold tradSwitchChain swCatF swUnitF
  dsimp only
  split_ifs <;> rfl

/-- Unit field of the traditional rate-unit chain. -/
def chUnitF (name unit : String) : String :=
  if containsS name "bps" || containsS name "bitrate" then "bps"
  else if containsS name "pps" || containsS name "packetrate" then "pps"
  else unit

/-- Category field of the traditional rate-unit chain (the error/discard
case, reached only when no rate cue matches, rewrites counters). -/
def chCatF (name mtype category : String) : String :=
  if containsS name "bps" || containsS name "bitrate" then category
  else if containsS name "pps" || containsS name "packetrate" then category
  else if containsS name "error" || containsS name "discard" then
    (if mtype == "counter" then "errors" else category)
  else category

theorem tradUnitChain_nf (m : Metric) :
    tradUnitChain m =
      { m with unit := chUnitF m.name m.unit,
               category := chCatF m.name m.mtype m.category } := by
  unfold tradUnitChain chUnitF chCatF
  dsimp only
  split_ifs <;> rfl

/-- Category field of `parseCiscoMetric`. -/
def cCatF (name subsystem category : String) : String :=
  if containsS name "interface" then "interfaces"
  else if containsS name "bgp" || containsS subsystem "bgp" then "bgp"
  else if containsS name "ospf" || containsS subsystem "ospf" then "ospf"
  else if containsS name "route" || containsS subsystem "route" then "routing"
  else if containsS name "memory" || containsS subsystem "memory" then "memory"
  else if containsS name "cpu" || containsS subsystem "cpu" then "cpu"
  else category

theorem cisco_nf (m : Metric) :
    parseCiscoMetric m =
      { m with category := cCatF m.name m.subsystem m.category } := by
  unfold parseCiscoMetric cCatF
  dsimp only
  split_ifs <;> rfl

theorem detect_name (knownPs customPs : List String) (m : Metric) :
    (detectVendorPrefix knownPs customPs m).name = m.name := by
  rw [detect_nf]

theorem detect_help (knownPs customPs : List String) (m : Metric) :
    (detectVendorPrefix knownPs customPs m).help = m.help := by
  rw [detect_nf]

theorem detect_mtype (knownPs customPs : List String) (m : Metric) :
    (detectVendorPrefix knownPs customPs m).mtype = m.mtype := by
  rw [detect_nf]

theorem detect_vendor (knownPs customPs : List String) (m : Metric) :
    (detectVendorPrefix knownPs customPs m).vendor =
      dVendorF knownPs customPs m.name m.help m.vendor := by
  rw [detect_nf]

theorem detect_subsystem (knownPs customPs : List String) (m : Metric) :
    (detectVendorPrefix knownPs customPs m).subsystem =
      dSubsystemF knownPs m.name m.help m.subsystem := by
  rw [detect_nf]

theorem detect_category (knownPs customPs : List String) (m : Metric) :
    (detectVendorPrefix knownPs customPs m).category =
      dCategoryF m.name m.help m.category := by
  rw [detect_nf]

/-- JTIMON-path record form of `parseJuniperMetric`. -/
theorem parseJuniper_nf_underscore (m : Metric)
    (h : startsWithS m.name "_" = true) :
    parseJuniperMetric m =
      { m with unit := jtUnitF m.name m.unit,
               category := jtCatF m.name m.category,
               displayName := jtDispF m.name } := by
  unfold parseJuniperMetric
  rw [if_pos h, jtimonUnitChain_nf, jtimonCategoryChain_nf, jtimonDisplayChain_nf]

/-- Traditional-path record form of `parseJuniperMetric`. -/
theorem parseJuniper_nf_trad (m : Metric)
    (h : startsWithS m.name "_" = false) :
    parseJuniperMetric m =
      { m with category := chCatF m.name m.mtype (swCatF m.name m.subsystem m.category),
               unit := chUnitF m.name (swUnitF m.name m.subsystem m.unit) } := by
  unfold parseJuniperMetric
  rw [if_neg (by simp [h]), tradSwitchChain_nf, tradUnitChain_nf]

theorem parseJuniper_name (m : Metric) :
    (parseJuniperMetric m).name = m.name := by
  by_cases h : startsWithS m.name "_" = true
  · rw [parseJuniper_nf_underscore m h]
  · rw [parseJuniper_nf_trad m (by simpa using h)]

theorem parseJuniper_help (m : Metric) :
    (parseJuniperMetric m).help = m.help := by
  by_cases h : startsWithS m.name "_" = true
  · rw [parseJuniper_nf_underscore m h]
  · rw [parseJuniper_nf_trad m (by simpa using h)]

theorem parseJuniper_vendor (m : Metric) :
    (parseJuniperMetric m).vendor = m.vendor := by
  by_cases h : startsWithS m.name "_" = true
  · rw [parseJuniper_nf_underscore m h]
  · rw [parseJuniper_nf_trad m (by simpa using h)]

theorem parseJuniper_subsystem (m : Metric) :
    (parseJuniperMetric m).subsystem = m.subsystem := by
  by_cases h : startsWithS m.name "_" = true
  · rw [parseJuniper_nf_underscore m h]
  · rw [parseJuniper_nf_trad m (by simpa using h)]

theorem cisco_name (m : Metric) : (parseCiscoMetric m).name = m.name := by
  rw [cisco_nf]

theorem cisco_help (m : Metric) : (parseCiscoMetric m).help = m.help := by
  rw [cisco_nf]

theorem cisco_vendor (m : Metric) : (parseCiscoMetric m).vendor = m.vendor := by
  rw [cisco_nf]

theorem cisco_subsystem (m : Metric) :
    (parseCiscoMetric m).subsystem = m.subsystem := by
  rw [cisco_nf]

theorem dVendorF_idem (knownPs customPs : List String) (n h v : String) :
    dVendorF knownPs customPs n h (dVendorF knownPs customPs n h v) =
      dVendorF knownPs customPs n h v := by
  unfold dVendorF
  by_cases hjt : (containsS h "JTIMON Metric" || startsWithS n "_") = true
  · simp [hjt]
  · simp only [Bool.not_eq_true] at hjt
    simp only [hjt, Bool.false_eq_true, if_false]
    rcases hfk : List.find? (fun p => startsWithS (toLowerS n) p) knownPs with _ | p
    · rcases hfc : List.find? (fun p => startsWithS (toLowerS n) p) customPs with _ | q
      · rfl
      · rfl
    · rfl

theorem dSubsystemF_idem (knownPs : List String) (n h s : String) :
    dSubsystemF knownPs n h (dSubsystemF knownPs n h s) =
      dSubsystemF knownPs n h s := by
  unfold dSubsystemF
  by_cases hjt : (containsS h "JTIMON Metric" || startsWithS n "_") = true
  · simp only [hjt, if_true]
    split_ifs <;> rfl
  · simp only [Bool.not_eq_true] at hjt
    simp only [hjt, Bool.false_eq_true, if_false]
    rcases hfk : List.find? (fun p => startsWithS (toLowerS n) p) knownPs with _ | p
    · rfl
    · rfl

theorem dCategoryF_idem (n h c : String) :
    dCategoryF n h (dCategoryF n h c) = dCategoryF n h c := by
  unfold dCategoryF
  split_ifs <;> rfl

theorem jtUnitF_idem (n u : String) : jtUnitF n (jtUnitF n u) = jtUnitF n u := by
  unfold jtUnitF
  split_ifs <;> rfl

theorem jtCatF_idem (n c : String) : jtCatF n (jtCatF n c) = jtCatF n c := by
  by_cases hi : containsS n "_interfaces_" = true
  · by_cases hc : (c == "") = true
    · by_cases he : (containsS n "_error" || containsS n "_discard") = true
      · simp [jtCatF, hi, hc, he]
      · by_cases h2 : containsS n "_counters_" = true
        · simp [jtCatF, hi, hc, he, h2]
        · by_cases h3 : containsS n "_state_" = true
          · simp [jtCatF, hi, hc, he, h2, h3]
          · by_cases h4 : containsS n "_statistics_" = true
            · simp [jtCatF, hi, hc, he, h2, h3, h4]
            · simp [jtCatF, hi, hc, he, h2, h3, h4]
    · simp [jtCatF, hi, hc]
  · simp [jtCatF, hi]

theorem swCatF_idem (n s c : String) :
    swCatF n s (swCatF n s c) = swCatF n s c := by
  unfold swCatF
  split_ifs <;> rfl

theorem swUnitF_idem (n s u : String) :
    swUnitF n s (swUnitF n s u) = swUnitF n s u := by
  unfold swUnitF
  split_ifs <;> rfl

theorem tradCatF_idem (n s t c : String) :
    chCatF n t (swCatF n s (chCatF n t (swCatF n s c))) =
      chCatF n t (swCatF n s c) := by
  by_cases hb : (containsS n "bps" || containsS n "bitrate") = true
  · simp [chCatF, hb, swCatF_idem]
  · by_cases hp : (containsS n "pps" || containsS n "packetrate") = true
    · simp [chCatF, hb, hp, swCatF_idem]
    · by_cases he : (containsS n "error" || containsS n "discard") = true
      · by_cases ht : (t == "counter") = true
        · simp [chCatF, hb, hp, he, ht]
        · simp [chCatF, hb, hp, he, ht, swCatF_idem]
      · simp [chCatF, hb, hp, he, swCatF_idem]

theorem tradUnitF_idem (n s u : String) :
    chUnitF n (swUnitF n s (chUnitF n (swUnitF n s u))) =
      chUnitF n (swUnitF n s u) := by
  by_cases hb : (containsS n "bps" || containsS n "bitrate") = true
  · simp [chUnitF, hb]
  · by_cases hp : (containsS n "pps" || containsS n "packetrate") = true
    · simp [chUnitF, hb, hp]
    · simp [chUnitF, hb, hp, swUnitF_idem]

theorem cCatF_idem (n s c : String) :
    cCatF n s (cCatF n s c) = cCatF n s c := by
  unfold cCatF
  split_ifs <;> rfl

/-- `parseJuniperMetric` is idempotent. -/
theorem parseJuniper_idem (m : Metric) :
    parseJuniperMetric (parseJuniperMetric m) = parseJuniperMetric m := by
  by_cases h : startsWithS m.name "_" = true
  · have h2 : startsWithS (parseJuniperMetric m).name "_" = true := by
      rw [parseJuniper_name]; exact h
    rw [parseJuniper_nf_underscore _ h2, parseJuniper_nf_underscore m h]
    simp [Metric.mk.injEq, jtUnitF_idem, jtCatF_idem]
  · have h0 : startsWithS m.name "_" = false := by simpa using h
    have h2 : startsWithS (parseJuniperMetric m).name "_" = false := by
      rw [parseJuniper_name]; exact h0
    rw [parseJuniper_nf_trad _ h2, parseJuniper_nf_trad m h0]
    simp [Metric.mk.injEq, tradUnitF_idem, tradCatF_idem]

/-- `parseCiscoMetric` is idempotent. -/
theorem cisco_idem (m : Metric) :
    parseCiscoMetric (parseCiscoMetric m) = parseCiscoMetric m := by
  rw [cisco_nf (parseCiscoMetric m), cisco_nf m]
  simp [Metric.mk.injEq, cCatF_idem]

theorem startsWithL_of_append (p q s : List Char) :
    startsWithL s (p ++ q) = true → startsWithL s p = true := by
  induction p generalizing s with
  | nil => intro _; cases s <;> rfl
  | cons a as ih =>
    intro h
    cases s with
    | nil => simp [startsWithL] at h
    | cons b bs =>
      simp only [List.cons_append, startsWithL, Bool.and_eq_true] at h ⊢
      exact ⟨h.1, ih bs h.2⟩

theorem not_components_of_not_underscore (n : String)
    (h : startsWithS n "_" = false) : startsWithS n "_components_" = false := by
  by_contra hc
  simp only [Bool.not_eq_false] at hc
  have hsplit : ("_components_" : String).data = ("_" : String).data ++ "components_".data := by
    decide
  unfold startsWithS at hc h
  rw [hsplit] at hc
  rw [startsWithL_of_append _ _ _ hc] at h
  simp at h

theorem not_interfaces_of_not_underscore (n : String)
    (h : startsWithS n "_" = false) : startsWithS n "_interfaces_" = false := by
  by_contra hc
  simp only [Bool.not_eq_false] at hc
  have hsplit : ("_interfaces_" : String).data = ("_" : String).data ++ "interfaces_".data := by
    decide
  unfold startsWithS at hc h
  rw [hsplit] at hc
  rw [startsWithL_of_append _ _ _ hc] at h
  simp at h

theorem dCategoryF_pass_of_not_jt (n h x : String)
    (hjt : (containsS h "JTIMON Metric" || startsWithS n "_") = false) :
    dCategoryF n h x = x := by
  unfold dCategoryF
  simp [hjt]

theorem dCategoryF_pass_of_not_underscore (n h x : String)
    (hu : startsWithS n "_" = false) : dCategoryF n h x = x := by
  unfold dCategoryF
  have h1 := not_components_of_not_underscore n hu
  have h2 := not_interfaces_of_not_underscore n hu
  simp [h1, h2]

/-- The category written by `detectVendorPrefix` is stable under a
subsequent JTIMON category chain and a second detection pass. -/
theorem dCat_jt_stable (n h c : String) :
    dCategoryF n h (jtCatF n (dCategoryF n h c)) =
      jtCatF n (dCategoryF n h c) := by
  by_cases hjt : (containsS h "JTIMON Metric" || startsWithS n "_") = true
  · by_cases hcomp : startsWithS n "_components_" = true
    · by_cases k1 : containsS n "_cpu_" = true
      · simp [dCategoryF, jtCatF, hjt, hcomp, k1]
      · by_cases k2 : containsS n "_memory_" = true
        · simp [dCategoryF, jtCatF, hjt, hcomp, k1, k2]
        · by_cases k3 : containsS n "_temperature_" = true
          · simp [dCategoryF, jtCatF, hjt, hcomp, k1, k2, k3]
          · by_cases k4 : containsS n "_transceiver_" = true
            · simp [dCategoryF, jtCatF, hjt, hcomp, k1, k2, k3, k4]
            · by_cases k5 : containsS n "_power_" = true
              · simp [dCategoryF, jtCatF, hjt, hcomp, k1, k2, k3, k4, k5]
              · simp [dCategoryF, hjt, hcomp, k1, k2, k3, k4, k5]
    · by_cases hintf : startsWithS n "_interfaces_" = true
      · by_cases k1 : containsS n "_ethernet_" = true
        · simp [dCategoryF, jtCatF, hjt, hcomp, hintf, k1]
        · by_cases k2 : containsS n "_aggregation_" = true
          · simp [dCategoryF, jtCatF, hjt, hcomp, hintf, k1, k2]
          · by_cases k3 : containsS n "_counters_" = true
            · simp [dCategoryF, jtCatF, hjt, hcomp, hintf, k1, k2, k3]
            · simp [dCategoryF, hjt, hcomp, hintf, k1, k2, k3]
      · simp [dCategoryF, hjt, hcomp, hintf]
  · simp only [Bool.not_eq_true] at hjt
    rw [dCategoryF_pass_of_not_jt _ _ _ hjt]

theorem classify_name (knownPs customPs : List String) (dj dc : Bool)
    (m : Metric) :
    (classifyVendor knownPs customPs dj dc m).name = m.name := by
  unfold classifyVendor
  dsimp only
  split_ifs <;> simp [parseJuniper_name, cisco_name, detect_name]

theorem classify_help (knownPs customPs : List String) (dj dc : Bool)
    (m : Metric) :
    (classifyVendor knownPs customPs dj dc m).help = m.help := by
  unfold classifyVendor
  dsimp only
  split_ifs <;> simp [parseJuniper_help, cisco_help, detect_help]

theorem classify_vendor (knownPs customPs : List String) (dj dc : Bool)
    (m : Metric) :
    (classifyVendor knownPs customPs dj dc m).vendor =
      (detectVendorPrefix knownPs customPs m).vendor := by
  unfold classifyVendor
  dsimp only
  split_ifs <;> simp [parseJuniper_vendor, cisco_vendor]

theorem classify_subsystem (knownPs customPs : List String) (dj dc : Bool)
    (m : Metric) :
    (classifyVendor knownPs customPs dj dc m).subsystem =
      (detectVendorPrefix knownPs customPs m).subsystem := by
  unfold classifyVendor
  dsimp only
  split_ifs <;> simp [parseJuniper_subsystem, cisco_subsystem]

/-- The first run characterised when the Juniper guard fires. -/
theorem classify_eq_juniper (knownPs customPs : List String) (dj dc : Bool)
    (m : Metric)
    (g1 : (dj && (detectVendorPrefix knownPs customPs m).vendor == "juniper") = true) :
    classifyVendor knownPs customPs dj dc m =
      parseJuniperMetric (detectVendorPrefix knownPs customPs m) := by
  have hjv : (detectVendorPrefix knownPs customPs m).vendor = "juniper" := by
    simp only [Bool.and_eq_true, beq_iff_eq] at g1
    exact g1.2
  unfold classifyVendor
  dsimp only
  rw [if_pos g1, if_neg (by simp [parseJuniper_vendor, hjv])]

/-- The first run characterised when the Cisco guard fires. -/
theorem classify_eq_cisco (knownPs customPs : List String) (dj dc : Bool)
    (m : Metric)
    (g1 : ¬ (dj && (detectVendorPrefix knownPs customPs m).vendor == "juniper") = true)
    (g2 : (dc && (detectVendorPrefix knownPs customPs m).vendor == "cisco") = true) :
    classifyVendor knownPs customPs dj dc m =
      parseCiscoMetric (detectVendorPrefix knownPs customPs m) := by
  unfold classifyVendor
  dsimp only
  rw [if_neg g1, if_pos g2]

/-- The first run characterised when neither enrichment guard fires. -/
theorem classify_eq_detect (knownPs customPs : List String) (dj dc : Bool)
    (m : Metric)
    (g1 : ¬ (dj && (detectVendorPrefix knownPs customPs m).vendor == "juniper") = true)
    (g2 : ¬ (dc && (detectVendorPrefix knownPs customPs m).vendor == "cisco") = true) :
    classifyVendor knownPs customPs dj dc m =
      detectVendorPrefix knownPs customPs m := by
  unfold classifyVendor
  dsimp only
  rw [if_neg g1, if_neg g2]

/-- `detectVendorPrefix` is a no-op on an already-classified metric. -/
theorem detect_stable (knownPs customPs : List String) (dj dc : Bool)
    (m : Metric) :
    detectVendorPrefix knownPs customPs (classifyVendor knownPs customPs dj dc m) =
      classifyVendor knownPs customPs dj dc m := by
  have hn := classify_name knownPs customPs dj dc m
  have hh := classify_help knownPs customPs dj dc m
  rw [detect_nf, hn, hh]
  have hv : dVendorF knownPs customPs m.name m.help
      (classifyVendor knownPs customPs dj dc m).vendor =
      (classifyVendor knownPs customPs dj dc m).vendor := by
    rw [classify_vendor, detect_vendor]
    exact dVendorF_idem knownPs customPs m.name m.help m.vendor
  have hs : dSubsystemF knownPs m.name m.help
      (classifyVendor knownPs customPs dj dc m).subsystem =
      (classifyVendor knownPs customPs dj dc m).subsystem := by
    rw [classify_subsystem, detect_subsystem]
    exact dSubsystemF_idem knownPs m.name m.help m.subsystem
  have hc : dCategoryF m.name m.help
      (classifyVendor knownPs customPs dj dc m).category =
      (classifyVendor knownPs customPs dj dc m).category := by
    by_cases g1 : (dj && (detectVendorPrefix knownPs customPs m).vendor == "juniper") = true
    · rw [classify_eq_juniper knownPs customPs dj dc m g1]
      by_cases hus : startsWithS m.name "_" = true
      · rw [parseJuniper_nf_underscore _ (by rw [detect_name]; exact hus)]
        dsimp only
        rw [detect_name, detect_category]
        exact dCat_jt_stable m.name m.help m.category
      · rw [parseJuniper_nf_trad _ (by rw [detect_name]; simpa using hus)]
        dsimp only
        exact dCategoryF_pass_of_not_underscore _ _ _ (by simpa using hus)
    · by_cases g2 : (dc && (detectVendorPrefix knownPs customPs m).vendor == "cisco") = true
      · rw [classify_eq_cisco knownPs customPs dj dc m g1 g2]
        rw [cisco_nf]
        dsimp only
        have hcis : (detectVendorPrefix knownPs customPs m).vendor = "cisco" := by
          simp only [Bool.and_eq_true, beq_iff_eq] at g2
          exact g2.2
        have hjtf : (containsS m.help "JTIMON Metric" || startsWithS m.name "_") = false := by
          by_contra hco
          simp only [Bool.not_eq_false] at hco
          rw [detect_vendor] at hcis
          unfold dVendorF at hcis
          rw [if_pos hco] at hcis
          exact absurd hcis (by decide)
        exact dCategoryF_pass_of_not_jt _ _ _ hjtf
      · rw [classify_eq_detect knownPs customPs dj dc m g1 g2, detect_category]
        exact dCategoryF_idem m.name m.help m.category
  rw [hv, hs, hc, ← hn, ← hh]

/-- The classifier block of the parser is idempotent: a second run with
the same configuration changes nothing. -/
theorem classifyVendor_idem (knownPs customPs : List String) (dj dc : Bool)
    (m : Metric) :
    classifyVendor knownPs customPs dj dc (classifyVendor knownPs customPs dj dc m) =
      classifyVendor knownPs customPs dj dc m := by
  have hst := detect_stable knownPs customPs dj dc m
  have hout : ∀ X : Metric, detectVendorPrefix knownPs customPs X = X →
      classifyVendor knownPs customPs dj dc X =
        (let m2 := if dj && X.vendor == "juniper" then parseJuniperMetric X else X;
         if dc && m2.vendor == "cisco" then parseCiscoMetric m2 else m2) := by
    intro X hX
    unfold classifyVendor
    rw [hX]
  rw [hout _ hst]
  dsimp only
  by_cases g1 : (dj && (detectVendorPrefix knownPs customPs m).vendor == "juniper") = true
  · have hjv : (detectVendorPrefix knownPs customPs m).vendor = "juniper" := by
      simp only [Bool.and_eq_true, beq_iff_eq] at g1
      exact g1.2
    have hX := classify_eq_juniper knownPs customPs dj dc m g1
    rw [hX]
    have hJv : (parseJuniperMetric (detectVendorPrefix knownPs customPs m)).vendor =
        (detectVendorPrefix knownPs customPs m).vendor :=
      parseJuniper_vendor _
    have e1 : (if (dj && (parseJuniperMetric (detectVendorPrefix knownPs customPs m)).vendor
          == "juniper") = true
        then parseJuniperMetric (parseJuniperMetric (detectVendorPrefix knownPs customPs m))
        else parseJuniperMetric (detectVendorPrefix knownPs customPs m)) =
        parseJuniperMetric (detectVendorPrefix knownPs customPs m) := by
      rw [if_pos (by rw [hJv]; exact g1)]
      exact parseJuniper_idem _
    rw [e1]
    rw [if_neg (by simp [hJv, hjv])]
  · by_cases g2 : (dc && (detectVendorPrefix knownPs customPs m).vendor == "cisco") = true
    · have hX := classify_eq_cisco knownPs customPs dj dc m g1 g2
      rw [hX]
      have hCv : (parseCiscoMetric (detectVendorPrefix knownPs customPs m)).vendor =
          (detectVendorPrefix knownPs customPs m).vendor :=
        cisco_vendor _
      have e1 : (if (dj && (parseCiscoMetric (detectVendorPrefix knownPs customPs m)).vendor
          == "juniper") = true
        then parseJuniperMetric (parseCiscoMetric (detectVendorPrefix knownPs customPs m))
        else parseCiscoMetric (detectVendorPrefix knownPs customPs m)) =
        parseCiscoMetric (detectVendorPrefix knownPs customPs m) := by
        rw [if_neg (by rw [hCv]; exact g1)]
      rw [e1]
      rw [if_pos (by rw [hCv]; exact g2)]
      exact cisco_idem _
    · have hX := classify_eq_detect knownPs customPs dj dc m g1 g2
      rw [hX]
      have e1 : (if (dj && (detectVendorPrefix knownPs customPs m).vendor
          == "juniper") = true
        then parseJuniperMetric (detectVendorPrefix knownPs customPs m)
        else detectVendorPrefix knownPs customPs m) =
        detectVendorPrefix knownPs customPs m := if_neg g1
      rw [e1, if_neg g2]

/-- C9: classification is idempotent — re-running the classifier block
(vendor-prefix detection plus the enabled vendor-specific enrichments)
with the same configuration on an already-classified Metric returns it
unchanged, so vendor, subsystem, category, unit and displayName are all
identical to their values after the first run. -/
theorem c9_classifier_idempotent (knownPs customPs : List String)
    (dj dc : Bool) (m : Metric) :
    classifyVendor knownPs customPs dj dc (classifyVendor knownPs customPs dj dc m) =
      classifyVendor knownPs customPs dj dc m :=
  classifyVendor_idem knownPs customPs dj dc m

/-! ## C8 — vendor-grouped layout ordering -/

/-- A vendor row-header panel, recognisable by its type and its
description `Metrics for <vendor title>`; the general header and the
category sub-headers never match (their descriptions start differently). -/
def isVendorHeader (p : Panel) : Bool :=
  p.ptype == "row" && startsWithS p.description "Metrics for "

/-- All category values the classifier can leave on a Metric (empty when
undetected; the other values are the literals written by
`detectVendorPrefix`, `parseJuniperMetric` and `parseCiscoMetric`). -/
def allowedCategories : List String :=
  ["", "cpu", "memory", "temperature", "transceiver", "power", "ethernet",
   "lag", "counters", "errors", "state", "statistics", "interfaces", "bgp",
   "ospf", "routing"]

/-- The corresponding category-map keys (an empty category groups under
"other"). -/
def allowedKeys : List String :=
  allowedCategories.map (fun c => if c == "" then "other" else c)

theorem startsWithL_append_self : ∀ (p rest : List Char),
    startsWithL (p ++ rest) p = true := by
  intro p
  induction p with
  | nil => intro rest; cases rest <;> rfl
  | cons a as ih =>
    intro rest
    simp [startsWithL, ih]

theorem startsWithL_nil (s : List Char) : startsWithL s [] = true := by
  cases s <;> rfl

theorem startsWithL_append_left : ∀ (p a b : List Char),
    p.length ≤ a.length → startsWithL (a ++ b) p = startsWithL a p := by
  intro p
  induction p with
  | nil =>
    intro a b _
    rw [startsWithL_nil, startsWithL_nil]
  | cons x xs ih =>
    intro a b hlen
    cases a with
    | nil => simp at hlen
    | cons y ys =>
      simp only [List.cons_append, startsWithL, List.append_eq]
      rw [ih ys b (by simpa using hlen)]

/-- A category sub-header over an allowed key is never mistaken for a
vendor header. -/
theorem catHeader_not_vendorHeader (k : String) (hk : k ∈ allowedKeys)
    (t : String) (y : Nat) :
    isVendorHeader
      (mkRowPanel (upperFirstS k) (upperFirstS k ++ " metrics for " ++ t) y) =
      false := by
  have h1 : startsWithS (upperFirstS k ++ " metrics for " ++ t) "Metrics for " = false := by
    unfold startsWithS
    rw [show (upperFirstS k ++ " metrics for " ++ t).data =
        (upperFirstS k ++ " metrics for ").data ++ t.data from String.data_append _ _]
    fin_cases hk <;>
      rw [startsWithL_append_left _ _ _ (by decide)] <;> decide
  simp [isVendorHeader, mkRowPanel, h1]

theorem foldl_addTarget_ptype (cs : List AlertCondition) (q : Panel) :
    (List.foldl (fun p cond =>
      if p.targets.any (fun t => t.refID == cond.target.refID) then p
      else { p with targets := p.targets ++ [
        { expr := cond.target.expr, refID := cond.target.refID,
          legendFormat := "", format := "time_series",
          datasource := cond.target.datasource }] }) q cs).ptype = q.ptype := by
  induction cs generalizing q with
  | nil => rfl
  | cons c cs ih =>
    rw [List.foldl_cons, ih]
    split_ifs <;> rfl

theorem addAlert_ptype (p : Panel) (a : AlertDefinition) :
    (addAlertToPanel p a).ptype = p.ptype := by
  unfold addAlertToPanel
  dsimp only
  rw [foldl_addTarget_ptype]

theorem createPanel_ptype (m : Metric) (cfg : Config) :
    (createPanelForMetric m cfg).ptype =
      (if cfg.gauges && m.mtype == "gauge" then "gauge" else "graph") := by
  unfold createPanelForMetric
  dsimp only
  rcases hth : generateAlertThreshold m with _ | th <;>
    split_ifs <;>
    simp_all [addAlert_ptype, Panel.setType, Panel.setMetricExpr,
      Panel.setLegendFormat, Panel.setUnit, Panel.setDescription, NewPanel]

/-- Metric panels placed by the shared loop are never vendor headers. -/
theorem placeLoop_filter (cfg : Config) (w : Bool) (ppr wd : Nat) :
    ∀ (ms : List Metric) (x y cnt : Nat),
    ((placeLoop cfg w ppr wd ms x y cnt).1).filter isVendorHeader = [] := by
  intro ms
  induction ms with
  | nil => intro x y cnt; rfl
  | cons m ms ih =>
    intro x y cnt
    have hp : isVendorHeader
        ((createPanelForMetric m cfg).setGridPos x y 8 wd) = false := by
      have h := createPanel_ptype m cfg
      simp only [isVendorHeader, Panel.setGridPos]
      rw [h]
      split_ifs <;> rfl
    simp only [placeLoop]
    rw [List.filter_cons_of_neg (by simp [hp])]
    exact ih _ _ _

theorem getAssoc_mem : ∀ (l : List (String × Metric)) (n : String) (m : Metric),
    getAssoc l n = some m → (n, m) ∈ l := by
  intro l
  induction l with
  | nil => intro n m h; simp [getAssoc] at h
  | cons kv rest ih =>
    intro n m h
    rcases kv with ⟨k, v⟩
    by_cases hk : (k == n) = true
    · simp only [getAssoc, hk, if_true, Option.some.injEq] at h
      subst h
      have : k = n := beq_iff_eq.mp hk
      subst this
      exact List.mem_cons_self _ _
    · simp only [getAssoc, hk, Bool.false_eq_true, if_false] at h
      exact List.mem_cons_of_mem _ (ih n m h)

theorem mem_forEachList (r : Registry) (p : String × Metric)
    (h : p ∈ r.forEachList) : p ∈ r.items := by
  unfold Registry.forEachList at h
  rcases List.mem_filterMap.mp h with ⟨n, _, hf⟩
  rcases hopt : r.get n with _ | m
  · rw [hopt] at hf; simp at hf
  · rw [hopt] at hf
    simp only [Option.map_some'] at hf
    rw [Option.some.injEq] at hf
    exact hf ▸ getAssoc_mem _ _ _ hopt

theorem mem_setAssoc : ∀ (l : List (String × Metric)) (n : String) (m : Metric)
    (x : String × Metric), x ∈ setAssoc l n m → x = (n, m) ∨ x ∈ l := by
  intro l
  induction l with
  | nil => intro n m x h; simpa [setAssoc] using h
  | cons kv rest ih =>
    intro n m x h
    rcases kv with ⟨k, v⟩
    by_cases hk : (k == n) = true
    · simp only [setAssoc, hk, if_true] at h
      rcases List.mem_cons.mp h with h1 | h1
      · exact Or.inl h1
      · exact Or.inr (List.mem_cons_of_mem _ h1)
    · simp only [setAssoc, hk, Bool.false_eq_true, if_false] at h
      rcases List.mem_cons.mp h with h1 | h1
      · exact Or.inr (h1 ▸ List.mem_cons_self _ _)
      · rcases ih n m x h1 with h2 | h2
        · exact Or.inl h2
        · exact Or.inr (List.mem_cons_of_mem _ h2)

theorem filter_fold_mem (f : String → Metric → Bool) :
    ∀ (l : List (String × Metric)) (acc : Registry) (x : String × Metric),
    x ∈ (l.foldl (fun acc p => if f p.1 p.2 then acc.set p.1 p.2 else acc) acc).items →
    x ∈ l ∨ x ∈ acc.items := by
  intro l
  induction l with
  | nil => intro acc x h; exact Or.inr h
  | cons p rest ih =>
    intro acc x h
    rw [List.foldl_cons] at h
    rcases ih _ x h with h1 | h1
    · exact Or.inl (List.mem_cons_of_mem _ h1)
    · by_cases hf : f p.1 p.2 = true
      · rw [if_pos hf] at h1
        rcases mem_setAssoc _ _ _ _ h1 with h2 | h2
        · exact Or.inl (h2 ▸ List.mem_cons_self _ _)
        · exact Or.inr h2
      · rw [if_neg hf] at h1
        exact Or.inr h1

theorem mem_registryFilter (r : Registry) (f : String → Metric → Bool)
    (x : String × Metric) (h : x ∈ (r.filter f).items) : x ∈ r.items := by
  unfold Registry.filter at h
  rcases filter_fold_mem f _ _ _ h with h1 | h1
  · exact mem_forEachList r x h1
  · simp [Registry.empty] at h1

theorem setAssoc_ne_nil (l : List (String × Metric)) (n : String) (m : Metric) :
    setAssoc l n m ≠ [] := by
  cases l with
  | nil => simp [setAssoc]
  | cons kv rest =>
    rcases kv with ⟨k, v⟩
    unfold setAssoc
    split_ifs <;> simp

theorem filter_fold_ne_nil (f : String → Metric → Bool) :
    ∀ (l : List (String × Metric)) (acc : Registry),
    ((∃ p ∈ l, f p.1 p.2 = true) ∨ acc.items ≠ []) →
    (l.foldl (fun acc p => if f p.1 p.2 then acc.set p.1 p.2 else acc) acc).items ≠ [] := by
  intro l
  induction l with
  | nil =>
    intro acc h
    rcases h with ⟨p, hp, _⟩ | h
    · simp at hp
    · exact h
  | cons p rest ih =>
    intro acc h
    rw [List.foldl_cons]
    by_cases hf : f p.1 p.2 = true
    · rw [if_pos hf]
      exact ih _ (Or.inr (setAssoc_ne_nil _ _ _))
    · rw [if_neg hf]
      apply ih
      rcases h with ⟨q, hq, hfq⟩ | h
      · rcases List.mem_cons.mp hq with h1 | h1
        · exact absurd (h1 ▸ hfq) hf
        · exact Or.inl ⟨q, h1, hfq⟩
      · exact Or.inr h

theorem listVendors_exists (r : Registry) (v : String)
    (h : v ∈ r.listVendors) : ∃ p ∈ r.forEachList, p.2.vendor = v := by
  unfold Registry.listVendors at h
  have h1 := mem_sortStrings.mp h
  have h2 := List.mem_dedup.mp h1
  rcases List.mem_filter.mp h2 with ⟨h3, _⟩
  rcases List.mem_map.mp h3 with ⟨p, hp, hv⟩
  exact ⟨p, hp, hv⟩

theorem filterByVendor_count_ne (r : Registry) (v : String)
    (hv : v ∈ r.listVendors) : ((r.filterByVendor v).count == 0) = false := by
  rcases listVendors_exists r v hv with ⟨p, hp, hpv⟩
  have hne : (r.filterByVendor v).items ≠ [] := by
    unfold Registry.filterByVendor Registry.filter
    refine filter_fold_ne_nil (fun _ m => m.vendor == v) r.forEachList
      Registry.empty (Or.inl ⟨p, hp, ?_⟩)
    show (p.2.vendor == v) = true
    rw [hpv]
    exact beq_self_eq_true v
  have hcount : (r.filterByVendor v).count ≠ 0 := by
    unfold Registry.count
    intro hz
    exact hne (List.length_eq_zero.mp hz)
  exact beq_eq_false_iff_ne.mpr hcount

theorem upsertGroup_keys : ∀ (gs : List (String × List Metric)) (k : String)
    (m : Metric) (x : String × List Metric),
    x ∈ upsertGroup gs k m → x.1 = k ∨ ∃ y ∈ gs, x.1 = y.1 := by
  intro gs
  induction gs with
  | nil =>
    intro k m x h
    simp only [upsertGroup, List.mem_singleton] at h
    exact Or.inl (by rw [h])
  | cons g rest ih =>
    intro k m x h
    rcases g with ⟨k2, ms⟩
    by_cases hk : (k2 == k) = true
    · simp only [upsertGroup, hk, if_true] at h
      rcases List.mem_cons.mp h with h1 | h1
      · exact Or.inl (by rw [h1]; exact beq_iff_eq.mp hk)
      · exact Or.inr ⟨x, List.mem_cons_of_mem _ h1, rfl⟩
    · simp only [upsertGroup, hk, Bool.false_eq_true, if_false] at h
      rcases List.mem_cons.mp h with h1 | h1
      · exact Or.inr ⟨(k2, ms), List.mem_cons_self _ _, by rw [h1]⟩
      · rcases ih k m x h1 with h2 | h2
        · exact Or.inl h2
        · rcases h2 with ⟨y, hy, hxy⟩
          exact Or.inr ⟨y, List.mem_cons_of_mem _ hy, hxy⟩

theorem groupsFold_keys (keyf : Metric → String) :
    ∀ (ms : List Metric) (gs : List (String × List Metric))
    (x : String × List Metric),
    x ∈ ms.foldl (fun gs m => upsertGroup gs (keyf m) m) gs →
    (∃ m ∈ ms, x.1 = keyf m) ∨ ∃ y ∈ gs, x.1 = y.1 := by
  intro ms
  induction ms with
  | nil => intro gs x h; exact Or.inr ⟨x, h, rfl⟩
  | cons m rest ih =>
    intro gs x h
    rw [List.foldl_cons] at h
    rcases ih _ x h with h1 | h1
    · rcases h1 with ⟨m2, hm2, hx⟩
      exact Or.inl ⟨m2, List.mem_cons_of_mem _ hm2, hx⟩
    · rcases h1 with ⟨y, hy, hxy⟩
      rcases upsertGroup_keys _ _ _ _ hy with h2 | h2
      · exact Or.inl ⟨m, List.mem_cons_self _ _, hxy ▸ h2⟩
      · rcases h2 with ⟨z, hz, hyz⟩
        exact Or.inr ⟨z, hz, hxy ▸ hyz⟩

theorem key_allowed (c : String) (hc : c ∈ allowedCategories) :
    (if c == "" then "other" else c) ∈ allowedKeys :=
  List.mem_map.mpr ⟨c, hc, rfl⟩

theorem vendorHeader_isVendorHeader (t : String) (y : Nat) :
    isVendorHeader (mkRowPanel t ("Metrics for " ++ t) y) = true := by
  simp only [isVendorHeader, mkRowPanel]
  have h : startsWithS ("Metrics for " ++ t) "Metrics for " = true := by
    unfold startsWithS
    rw [String.data_append]
    exact startsWithL_append_self _ _
  simp [h]

theorem generalHeader_not_vendorHeader (y : Nat) :
    isVendorHeader
      (mkRowPanel "General Metrics" "General metrics with no vendor prefix" y) =
      false := by
  simp only [isVendorHeader, mkRowPanel]
  decide

/-- The per-category fold of a vendor section adds no vendor headers. -/
theorem catFold_filter (cfg : Config) (t : String) :
    ∀ (entries : List (String × List Metric)),
    (∀ e ∈ entries, e.1 ∈ allowedKeys) →
    ∀ (ps0 : List Panel) (y0 : Nat),
    ((entries.foldl
      (fun (acc : List Panel × Nat) c =>
        if c.2.length == 0 then acc
        else
          let catTitle := upperFirstS c.1
          let chdr := mkRowPanel catTitle
            (catTitle ++ " metrics for " ++ t) acc.2
          let placed := placeLoop cfg (wrapFlagFrom cfg.labelGrouping)
            (pprFrom cfg.labelGrouping) (panelWidthFrom cfg.labelGrouping)
            c.2 0 (acc.2 + 1) 0
          let yEnd := if placed.2.1 > 0 then placed.2.2 + 8 else placed.2.2
          (acc.1 ++ chdr :: placed.1, yEnd))
      (ps0, y0)).1).filter isVendorHeader = ps0.filter isVendorHeader := by
  intro entries
  induction entries with
  | nil => intro _ ps0 y0; rfl
  | cons e es ih =>
    intro hk ps0 y0
    rw [List.foldl_cons]
    by_cases he : (e.2.length == 0) = true
    · rw [if_pos he]
      exact ih (fun x hx => hk x (List.mem_cons_of_mem _ hx)) ps0 y0
    · rw [if_neg he]
      dsimp only
      rw [ih (fun x hx => hk x (List.mem_cons_of_mem _ hx))]
      rw [List.filter_append]
      have h1 : isVendorHeader
          (mkRowPanel (upperFirstS e.1) (upperFirstS e.1 ++ " metrics for " ++ t)
            y0) = false :=
        catHeader_not_vendorHeader e.1 (hk e (List.mem_cons_self _ _)) t y0
      rw [List.filter_cons_of_neg (by simp [h1])]
      rw [placeLoop_filter]
      simp

/-- A vendor section's vendor headers are exactly its own, titled with
the vendor's display name. -/
theorem vendorSection_filter
    (ordCat : List (String × List Metric) → List (String × List Metric))
    (r : Registry) (cfg : Config) (v : String) (y : Nat)
    (hcnt : ((r.filterByVendor v).count == 0) = false)
    (hkeys : ∀ e ∈ ordCat ((r.filterByVendor v).metricsInOrder.foldl
        (fun gs m =>
          upsertGroup gs (if m.category == "" then "other" else m.category) m) []),
      e.1 ∈ allowedKeys) :
    (((vendorSection ordCat r cfg v y).1).filter isVendorHeader).map
      (fun p => p.title) = [vendorTitleOf v] := by
  unfold vendorSection
  rw [if_neg (by simp [hcnt])]
  dsimp only
  split_ifs with hlen hx
  · dsimp only
    rw [List.filter_cons_of_pos (by simp [vendorHeader_isVendorHeader])]
    rw [catFold_filter cfg (vendorTitleOf v) _ hkeys]
    rfl
  · dsimp only
    rw [List.filter_cons_of_pos (by simp [vendorHeader_isVendorHeader])]
    rw [placeLoop_filter]
    rfl
  · dsimp only
    rw [List.filter_cons_of_pos (by simp [vendorHeader_isVendorHeader])]
    rw [placeLoop_filter]
    rfl

/-- The vendor fold emits the vendor headers in the traversal order. -/
theorem vendorFold_filter
    (ordCat : List (String × List Metric) → List (String × List Metric))
    (r : Registry) (cfg : Config) :
    ∀ (vs : List String) (acc : List Panel × Nat),
    (∀ v ∈ vs, ∀ y,
      (((vendorSection ordCat r cfg v y).1).filter isVendorHeader).map
        (fun p => p.title) = [vendorTitleOf v]) →
    (((vs.foldl
      (fun (acc : List Panel × Nat) v =>
        let sec := vendorSection ordCat r cfg v acc.2
        (acc.1 ++ sec.1, sec.2)) acc).1).filter isVendorHeader).map
          (fun p => p.title) =
      ((acc.1.filter isVendorHeader).map (fun p => p.title)) ++
        vs.map vendorTitleOf := by
  intro vs
  induction vs with
  | nil => intro acc _; simp
  | cons v vs ih =>
    intro acc hv
    rw [List.foldl_cons]
    dsimp only
    rw [ih _ (fun w hw => hv w (List.mem_cons_of_mem _ hw))]
    rw [List.filter_append, List.map_append]
    rw [hv v (List.mem_cons_self _ _) acc.2]
    simp

/-- Registry fixture for C8: one un-vendored metric, two Juniper metrics
in distinct categories, and one Arista metric. -/
def regV : Registry :=
  ⟨[("up", Metric.new "up" "" [] "gauge" "" ""),
    ("jc", { Metric.new "jc" "" [] "gauge" "" "" with
      vendor := "juniper", category := "cpu" }),
    ("jm", { Metric.new "jm" "" [] "gauge" "" "" with
      vendor := "juniper", category := "memory" }),
    ("ax", { Metric.new "ax" "" [] "counter" "" "" with
      vendor := "arista" })]⟩

/-- C8: in the vendor-grouped layout (dashboard.go:290-497) the
"General Metrics" row header, whenever it is emitted (some metric has an
empty vendor tag), is the very first panel of the generated sequence and
so precedes every vendor row header; and the vendor row headers — the
row panels whose description starts with "Metrics for " — appear exactly
once per vendor, titled with the vendor display name, in the order of
`ListVendors` (registry.go), which is lexicographically sorted. This
holds for every category-map iteration order `ordCat` that yields
entries of the map (Go `range` visits each entry) and for registries
whose categories come from the classifier's vocabulary. -/
theorem c8_vendor_grouped_ordering
    (ordCat : List (String × List Metric) → List (String × List Metric))
    (r : Registry) (cfg : Config)
    (hcat : ∀ p ∈ r.items, p.2.category ∈ allowedCategories)
    (hord : ∀ (l : List (String × List Metric)) (x : String × List Metric),
      x ∈ ordCat l → x ∈ l) :
    ((r.filter (fun _ m => m.vendor == "")).count > 0 →
      (generateWithVendorGroupsPanels ordCat r cfg).head? =
        some (mkRowPanel "General Metrics"
          "General metrics with no vendor prefix" 0)) ∧
    ((generateWithVendorGroupsPanels ordCat r cfg).filter
        isVendorHeader).map (fun p => p.title) =
      r.listVendors.map vendorTitleOf ∧
    List.Pairwise strLeRel r.listVendors := by
  have hsec : ∀ v ∈ r.listVendors, ∀ y,
      (((vendorSection ordCat r cfg v y).1).filter isVendorHeader).map
        (fun p => p.title) = [vendorTitleOf v] := by
    intro v hv y
    apply vendorSection_filter
    · exact filterByVendor_count_ne r v hv
    · intro e he
      have he2 := hord _ _ he
      rcases groupsFold_keys
          (fun m => if m.category == "" then "other" else m.category)
          (r.filterByVendor v).metricsInOrder [] e he2 with
        ⟨m, hm, hme⟩ | ⟨y2, hy2, _⟩
      · rcases List.mem_map.mp hm with ⟨p, hp, hpm⟩
        have hpi : p ∈ r.items :=
          mem_registryFilter r (fun _ m => m.vendor == v) p
            (mem_forEachList _ p hp)
        have hca : m.category ∈ allowedCategories := hpm ▸ hcat p hpi
        rw [hme]
        exact key_allowed m.category hca
      · simp at hy2
  refine ⟨?_, ?_, ?_⟩
  · intro hnv
    unfold generateWithVendorGroupsPanels
    dsimp only
    rw [if_pos hnv]
    rfl
  · unfold generateWithVendorGroupsPanels
    dsimp only
    rw [List.filter_append, List.map_append]
    have h2 : ∀ G : Nat, (((r.listVendors.foldl
        (fun (acc : List Panel × Nat) v =>
          (acc.1 ++ (vendorSection ordCat r cfg v acc.2).1,
            (vendorSection ordCat r cfg v acc.2).2))
        (([] : List Panel), G)).1).filter isVendorHeader).map
          (fun p => p.title) =
        r.listVendors.map vendorTitleOf :=
      fun G => vendorFold_filter ordCat r cfg r.listVendors ([], G) hsec
    by_cases hnv : (r.filter (fun _ m => m.vendor == "")).count > 0
    · rw [if_pos hnv]
      dsimp only
      rw [h2]
      rw [List.filter_cons_of_neg (by simp [generalHeader_not_vendorHeader])]
      rw [placeLoop_filter]
      simp
    · rw [if_neg hnv]
      dsimp only
      rw [h2]
      simp
  · unfold Registry.listVendors
    exact sortStrings_sorted _

/-- Witness for C8: the concrete registry `regV` (vendors "", "juniper",
"arista") with the identity iteration oracle satisfies both hypotheses,
and the theorem applies. -/
theorem c8_witness :
    (∀ p ∈ regV.items, p.2.category ∈ allowedCategories) ∧
    (∀ (l : List (String × List Metric)) (x : String × List Metric),
      x ∈ (fun l => l) l → x ∈ l) ∧
    (((regV.filter (fun _ m => m.vendor == "")).count > 0 →
      (generateWithVendorGroupsPanels (fun l => l) regV cfgDefaults).head? =
        some (mkRowPanel "General Metrics"
          "General metrics with no vendor prefix" 0)) ∧
    ((generateWithVendorGroupsPanels (fun l => l) regV cfgDefaults).filter
        isVendorHeader).map (fun p => p.title) =
      regV.listVendors.map vendorTitleOf ∧
    List.Pairwise strLeRel regV.listVendors) :=
  ⟨by decide, fun _ _ h => h,
    c8_vendor_grouped_ordering (fun l => l) regV cfgDefaults
      (by decide) (fun _ _ h => h)⟩

end Lazydash

